import Mathlib

/-!
Shallow embedding of the report-generation core of the dual-mode HID keyboard
firmware (`src/hid/dual_mode_keyboard/keyboard.c`), together with theorems
settling the specification claims about it.

Modelling conventions:
* `uint8_t` scan codes, translation codes, bitmasks and counters are `Nat`;
  `int16_t` quantities (the scroll accumulator) are `Int` with an explicit
  two's-complement wrap `toInt16` applied where the C code narrows to
  `int16_t`.
* The aggregate `tKbAppState` (plus the global `kbapp_protocol`) is the
  structure `KbState`.  Array-plus-live-count pairs
  (`stdRpt.keyCodes`/`keysInStdRpt`, `pinCodeBuffer`/`pinCodeSize`) are
  modelled as the list of live cells: the C code only ever reads cells below
  the count, appends at the count, and zeroes cells it retires, so the live
  prefix is the whole observable state.  Write-only report-ID bytes are
  omitted.
* Functions that transmit over the transport return, next to the new state,
  the list of reports they handed to the (external) transport layer, as
  `Tx` tags.
* The immutable configuration (`kbAppConfig`, `kbKeyConfig`) lives in
  `KbConfig` / a `List KbKeyConfig` parameter.  Numeric values of header
  enumerations that do not occur in `src/` (key types, func-lock states,
  up/down encodings) are fixed as distinct constants; only their
  distinctness is ever used.
-/

namespace Kb

/-- Key event direction: the keyscan driver reports `0` for a key press
(the trace in `kbapp_pollActivityKey` prints "Down" for flag `0`). -/
def KEY_DOWN : Nat := 0

/-- Key event direction: key release. -/
def KEY_UP : Nat := 1

/-- HID protocol value for boot protocol (`HID_PAR_PROTOCOL_BOOT`). -/
def PROTOCOL_BOOT : Nat := 0

/-- HID protocol value for report protocol (`HID_PAR_PROTOCOL_REPORT`). -/
def PROTOCOL_REPORT : Nat := 1

/-- Func-lock logical state OFF (`FUNC_LOCK_STATE_OFF`); the report encodes
the state in bit 0 (`status = state | 2`), so OFF is 0. -/
def FUNC_LOCK_STATE_OFF : Nat := 0

/-- Func-lock logical state ON (`FUNC_LOCK_STATE_ON`). -/
def FUNC_LOCK_STATE_ON : Nat := 1

/-- Tracked physical position of the func-lock key: up. -/
def FUNC_LOCK_KEY_UP : Nat := 0

/-- Tracked physical position of the func-lock key: down. -/
def FUNC_LOCK_KEY_DOWN : Nat := 1

/-- Key type dispatched to the standard-report handler (`KEY_TYPE_STD`). -/
def KEY_TYPE_STD : Nat := 1

/-- Key type dispatched to the modifier handler (`KEY_TYPE_MODIFIER`). -/
def KEY_TYPE_MODIFIER : Nat := 2

/-- Key type dispatched to the bit-mapped handler (`KEY_TYPE_BIT_MAPPED`). -/
def KEY_TYPE_BIT_MAPPED : Nat := 3

/-- Key type dispatched to the sleep handler (`KEY_TYPE_SLEEP`). -/
def KEY_TYPE_SLEEP : Nat := 4

/-- Key type dispatched to the func-lock handler (`KEY_TYPE_FUNC_LOCK`). -/
def KEY_TYPE_FUNC_LOCK : Nat := 5

/-- Key type dispatched to the func-lock-dependent handler
(`KEY_TYPE_FUNC_LOCK_DEP`). -/
def KEY_TYPE_FUNC_LOCK_DEP : Nat := 6

/-- Key type that is ignored (`KEY_TYPE_NONE`). -/
def KEY_TYPE_NONE : Nat := 0

/-- Modelled from the spec: the end-of-scan-cycle sentinel scan code that the
keyscan driver layer enqueues once per scan cycle (§3 of the spec).  Its
numeric value comes from a driver header outside this repository; the
dispatcher in `kbapp_procEvtKey` compares `keyCode < kbKeyConfig_size`
before comparing against the sentinel, so the sentinel lies at or above the
key-configuration table size.  Theorems only use that ordering, stated as an
explicit hypothesis. -/
def END_OF_SCAN_CYCLE : Nat := 255

/- USB usage codes used by the pin-entry handler and the func-lock dependent
key translation table (standard USB HID usage table values). -/

/-- USB usage code for Enter. -/
def USB_USAGE_ENTER : Nat := 0x28

/-- USB usage code for Escape. -/
def USB_USAGE_ESCAPE : Nat := 0x29

/-- USB usage code for Backspace. -/
def USB_USAGE_BACKSPACE : Nat := 0x2A

/-- USB usage code for Delete. -/
def USB_USAGE_DELETE : Nat := 0x4C

/-- USB usage code for the digit 1 on the main keyboard. -/
def USB_USAGE_1 : Nat := 0x1E

/-- USB usage code for the digit 9 on the main keyboard. -/
def USB_USAGE_9 : Nat := 0x26

/-- USB usage code for the digit 0 on the main keyboard. -/
def USB_USAGE_0 : Nat := 0x27

/-- USB usage code for keypad Enter. -/
def USB_USAGE_KP_ENTER : Nat := 0x58

/-- USB usage code for keypad 1. -/
def USB_USAGE_KP_1 : Nat := 0x59

/-- USB usage code for keypad 9. -/
def USB_USAGE_KP_9 : Nat := 0x61

/-- USB usage code for keypad 0. -/
def USB_USAGE_KP_0 : Nat := 0x62

/-- USB usage codes for F1 through F12 and Power, used in the func-lock
dependent key translation table. -/
def USB_USAGE_F1 : Nat := 0x3A

/-- USB usage code for F2. -/
def USB_USAGE_F2 : Nat := 0x3B

/-- USB usage code for F3. -/
def USB_USAGE_F3 : Nat := 0x3C

/-- USB usage code for F4. -/
def USB_USAGE_F4 : Nat := 0x3D

/-- USB usage code for F5. -/
def USB_USAGE_F5 : Nat := 0x3E

/-- USB usage code for F6. -/
def USB_USAGE_F6 : Nat := 0x3F

/-- USB usage code for F7. -/
def USB_USAGE_F7 : Nat := 0x40

/-- USB usage code for F8. -/
def USB_USAGE_F8 : Nat := 0x41

/-- USB usage code for F9. -/
def USB_USAGE_F9 : Nat := 0x42

/-- USB usage code for F10. -/
def USB_USAGE_F10 : Nat := 0x43

/-- USB usage code for F11. -/
def USB_USAGE_F11 : Nat := 0x44

/-- USB usage code for F12. -/
def USB_USAGE_F12 : Nat := 0x45

/-- USB usage code for Power. -/
def USB_USAGE_POWER : Nat := 0x66

/-- One entry of the static `kbKeyConfig[]` table: scan code to
key type plus translation value. -/
structure KbKeyConfig where
  type : Nat
  translationValue : Nat
  deriving Repr, DecidableEq

/-- One entry of `kbFuncLockDepKeyTransTab[]`: the bit-report row/col code
and the standard-report USB usage code of a func-lock dependent key. -/
structure KbFuncLockDepKeyTransTab where
  bitRptCode : Nat
  stdRptCode : Nat
  deriving Repr, DecidableEq

/-- The translation table for func-lock dependent keys
(`kbFuncLockDepKeyTransTab` in `keyboard.c`, 13 entries). -/
def kbFuncLockDepKeyTransTab : List KbFuncLockDepKeyTransTab :=
  [⟨0x03, USB_USAGE_F1⟩,
   ⟨0x05, USB_USAGE_F2⟩,
   ⟨0x08, USB_USAGE_F3⟩,
   ⟨0x06, USB_USAGE_F4⟩,
   ⟨0x09, USB_USAGE_F5⟩,
   ⟨0x0D, USB_USAGE_F6⟩,
   ⟨0x0B, USB_USAGE_F7⟩,
   ⟨0x0E, USB_USAGE_F8⟩,
   ⟨0x0C, USB_USAGE_F9⟩,
   ⟨0x11, USB_USAGE_F10⟩,
   ⟨0x10, USB_USAGE_F11⟩,
   ⟨0x0F, USB_USAGE_F12⟩,
   ⟨0x0, USB_USAGE_POWER⟩]

/-- The immutable application configuration (`kbAppConfig` fields read by
the embedded functions). -/
structure KbConfig where
  maxKeysInStdRpt : Nat
  numBitMappedKeys : Nat
  recoveryPollCount : Nat
  scrollScale : Nat
  negateScroll : Bool
  scrollCombining : Bool
  pollsToKeepFracScrollData : Nat
  connectButtonScanIndex : Nat
  deriving Repr, DecidableEq

/-- Pin/pass-code entry sub-mode (`pinCodeEntryInProgress`): none, legacy
pin entry, or LE pass-key entry. -/
inductive PinEntryMode where
  | none
  | legacyPin
  | passKey
  deriving Repr, DecidableEq

/-- One event record in the firmware event queue (`HidEvent` and its
key/motion refinements).  Key events carry the up/down flag and scan code;
motion events carry the (already scaled) scroll count; `overflow` is the
queue-overflow marker the queue library substitutes when full. -/
inductive HidEvent where
  | key (upDownFlag : Nat) (keyCode : Nat)
  | motion (motion : Int)
  | overflow
  | userDefined
  deriving Repr, DecidableEq

/-- Tags for reports handed to the transport layer. -/
inductive Tx where
  | std
  | rollover
  | bit
  | sleep
  | funcLock
  | scroll
  | pin
  | battery
  deriving Repr, DecidableEq

/-- The mutable application state: the fields of `tKbAppState` (plus the
global `kbapp_protocol`) that the report-generation core reads or writes. -/
structure KbState where
  protocol : Nat
  /-- `stdRpt.modifierKeys`. -/
  stdRptModifierKeys : Nat
  /-- the live prefix `stdRpt.keyCodes[0 .. keysInStdRpt-1]`;
  `keysInStdRpt` is its length. -/
  stdRptKeyCodes : List Nat
  modKeysInStdRpt : Nat
  stdRptChanged : Bool
  /-- the bytes of `bitMappedReport.bitMappedKeys`. -/
  bitMappedKeys : List Nat
  keysInBitRpt : Nat
  bitRptChanged : Bool
  /-- `slpRpt.sleepVal`. -/
  sleepVal : Nat
  slpRptChanged : Bool
  /-- `funcLockInfo.state`. -/
  funcLockState : Nat
  /-- `funcLockInfo.kepPosition` (sic, the source field name). -/
  funcLockKepPosition : Nat
  /-- `funcLockInfo.toggleStateOnKeyUp`. -/
  toggleStateOnKeyUp : Bool
  /-- `funcLockRpt.status`. -/
  funcLockRptStatus : Nat
  funcLockRptChanged : Bool
  /-- `scrollReport.motionAxis0`. -/
  scrollMotionAxis0 : Int
  scrollRptChanged : Bool
  /-- `scrollFractional`, an `int16_t` accumulator. -/
  scrollFractional : Int
  pollsSinceScroll : Nat
  /-- `pinReport.reportCode`. -/
  pinReportCode : Nat
  pinRptChanged : Bool
  /-- the live prefix `pinCodeBuffer[0 .. pinCodeSize-1]`; `pinCodeSize` is
  its length. -/
  pinCodeBuffer : List Nat
  maxPinCodeSize : Nat
  /-- `enterKeyPressed`: 0 when no enter key is latched, otherwise the USB
  usage code of the latched enter key. -/
  enterKeyPressed : Nat
  pinCodeEntryInProgress : PinEntryMode
  recoveryInProgress : Nat
  eventQueue : List HidEvent
  deriving Repr, DecidableEq

/-- `keysInStdRpt`: the C code keeps this counter in lock step with the live
prefix of `stdRpt.keyCodes`, which the list field models directly. -/
def KbState.keysInStdRpt (s : KbState) : Nat := s.stdRptKeyCodes.length

/-- `pinCodeSize`: maintained in lock step with the live prefix of
`pinCodeBuffer`. -/
def KbState.pinCodeSize (s : KbState) : Nat := s.pinCodeBuffer.length

/-- Two's-complement narrowing of an integer to `int16_t`, the conversion
the C code performs whenever it stores into an `int16_t`. -/
def toInt16 (x : Int) : Int := (x + 2 ^ 15) % 2 ^ 16 - 2 ^ 15

/-- Arithmetic shift right on `Int` (what `>>` does to a negative signed
value on this target): floor division by a power of two. -/
def sar (x : Int) (s : Nat) : Int := Int.fdiv x (2 ^ s)

/-- `kbapp_scaleValue`: scales a value by a power of two, returning the
quotient and leaving the remainder in the value (returned second).
`result = -*val` and the `result << scaleFactor` subtraction happen in
`int16_t`/`int` exactly as in the C code, with `toInt16` at each narrowing
store. -/
def kbapp_scaleValue (val : Int) (scaleFactor : Nat) : Int × Int :=
  let result : Int := toInt16 (if val < 0 then -val else val)
  let result : Int := sar result scaleFactor
  if result ≠ 0 then
    let result : Int := if val < 0 then toInt16 (-result) else result
    (result, toInt16 (val - result * 2 ^ scaleFactor))
  else
    (result, val)

/-- `kbapp_stdRptClear`: clear the standard report and both live-key
counters (the modifier bitmask, the key-code array and `keysInStdRpt`,
`modKeysInStdRpt`). -/
def kbapp_stdRptClear (s : KbState) : KbState :=
  { s with modKeysInStdRpt := 0, stdRptKeyCodes := [], stdRptModifierKeys := 0 }

/-- `kbapp_bitRptClear`: zero the bit array and the `keysInBitRpt`
counter. -/
def kbapp_bitRptClear (s : KbState) : KbState :=
  { s with keysInBitRpt := 0,
           bitMappedKeys := List.replicate s.bitMappedKeys.length 0 }

/-- `kbapp_slpRptClear`: zero the sleep status byte. -/
def kbapp_slpRptClear (s : KbState) : KbState :=
  { s with sleepVal := 0 }

/-- `kbapp_scrollRptClear`: zero the scroll report and mark it unchanged. -/
def kbapp_scrollRptClear (s : KbState) : KbState :=
  { s with scrollMotionAxis0 := 0, scrollRptChanged := false }

/-- `kbapp_pinRptClear`: zero the pin-entry report code. -/
def kbapp_pinRptClear (s : KbState) : KbState :=
  { s with pinReportCode := 0 }

/-- `kbapp_clearAllReports`: clear the standard, bit-mapped, sleep, pin and
scroll reports and flag all six dynamic reports (those five plus func-lock)
as unchanged. -/
def kbapp_clearAllReports (s : KbState) : KbState :=
  let s := kbapp_scrollRptClear (kbapp_pinRptClear
            (kbapp_slpRptClear (kbapp_bitRptClear (kbapp_stdRptClear s))))
  { s with bitRptChanged := false, slpRptChanged := false,
           stdRptChanged := false, pinRptChanged := false,
           scrollRptChanged := false, funcLockRptChanged := false }

/-- `kbapp_flushUserInput`: drop the fractional scroll count, end any
recovery, clear all reports and flush the event queue. -/
def kbapp_flushUserInput (s : KbState) : KbState :=
  let s := { s with scrollFractional := 0, recoveryInProgress := 0 }
  let s := kbapp_clearAllReports s
  { s with eventQueue := [] }

/-- `kbapp_stdRptRolloverSend`: transmit the static rollover report (its
contents are fixed at init); no report flag is altered. -/
def kbapp_stdRptRolloverSend (s : KbState) : KbState × List Tx :=
  (s, [Tx.rollover])

/-- `kbapp_stdErrResp`: the standard error response.  Clears all reports,
marks the func-lock key position up, sends a rollover report only when no
recovery is already in progress, restarts the recovery countdown at the
configured poll count, and re-marks the sleep, bit-mapped and standard
reports as changed.  (The trailing `kbapp_connectButtonHandler(UP)` call
has no effect on this state.) -/
def kbapp_stdErrResp (cfg : KbConfig) (s : KbState) : KbState × List Tx :=
  let s1 := kbapp_clearAllReports s
  let s2 := { s1 with funcLockKepPosition := FUNC_LOCK_KEY_UP }
  let tx := if s2.recoveryInProgress = 0 then (kbapp_stdRptRolloverSend s2).2 else []
  let s3 := { s2 with recoveryInProgress := cfg.recoveryPollCount }
  ({ s3 with slpRptChanged := true, bitRptChanged := true, stdRptChanged := true }, tx)

/-- `kbapp_stdErrRespWithFwHwReset`: the standard error response plus a
flush of the event queue (the keyscan hardware reset is external). -/
def kbapp_stdErrRespWithFwHwReset (cfg : KbConfig) (s : KbState) : KbState × List Tx :=
  let r := kbapp_stdErrResp cfg s
  ({ r.1 with eventQueue := [] }, r.2)

/-- `kbapp_procErrKeyscan`: ghost-key error handler. -/
def kbapp_procErrKeyscan (cfg : KbConfig) (s : KbState) : KbState × List Tx :=
  kbapp_stdErrRespWithFwHwReset cfg s

/-- `kbapp_procErrEvtQueue`: event-queue error handler. -/
def kbapp_procErrEvtQueue (cfg : KbConfig) (s : KbState) : KbState × List Tx :=
  kbapp_stdErrRespWithFwHwReset cfg s

/-- `kbapp_stdRptProcOverflow`: standard-report overflow handler. -/
def kbapp_stdRptProcOverflow (cfg : KbConfig) (s : KbState) : KbState × List Tx :=
  kbapp_stdErrRespWithFwHwReset cfg s

/-- `kbapp_stdRptProcEvtKeyDown`: add a standard key to the report.  The C
loop scans `keyCodes[0..keysInStdRpt)` for the translation code and returns
if present; otherwise the loop index has reached `keysInStdRpt`, and the key
is appended there when `keysInStdRpt < maxKeysInStdRpt`, else the overflow
handler runs. -/
def kbapp_stdRptProcEvtKeyDown (cfg : KbConfig) (s : KbState)
    (translationCode : Nat) : KbState × List Tx :=
  if translationCode ∈ s.stdRptKeyCodes then
    (s, [])
  else if s.stdRptKeyCodes.length < cfg.maxKeysInStdRpt then
    ({ s with stdRptKeyCodes := s.stdRptKeyCodes ++ [translationCode],
              stdRptChanged := true }, [])
  else
    kbapp_stdRptProcOverflow cfg s

/-- Swap-removal of index `i` from the live key list: the C code copies the
last live cell over index `i`, zeroes the retired cell and decrements the
count; on the live prefix this is `set i last` followed by `dropLast`. -/
def swapRemove (l : List Nat) (i : Nat) : List Nat :=
  (l.set i (l.getD (l.length - 1) 0)).dropLast

/-- The scan loop of `kbapp_stdRptProcEvtKeyUp`: starting at index `i`,
scan the live key list for the translation code; on a match, swap-remove it
and flag the report changed.  The C loop does not re-examine the cell the
swap filled (the index advances past it) and keeps scanning to the (now
shorter) end. -/
def stdUpScan (translationCode : Nat) (l : List Nat) (i : Nat) : List Nat × Bool :=
  if h : i < l.length then
    if l.getD i 0 = translationCode then
      let rest := stdUpScan translationCode (swapRemove l i) (i + 1)
      (rest.1, true)
    else
      stdUpScan translationCode l (i + 1)
  else
    (l, false)
termination_by l.length - i
decreasing_by
  · simp only [swapRemove, List.length_dropLast, List.length_set]
    omega
  · omega

/-- `kbapp_stdRptProcEvtKeyUp`: remove a standard key from the report via
the swap-removal scan; the changed flag is set only if a match was found. -/
def kbapp_stdRptProcEvtKeyUp (s : KbState) (translationCode : Nat) : KbState :=
  let r := stdUpScan translationCode s.stdRptKeyCodes 0
  { s with stdRptKeyCodes := r.1, stdRptChanged := s.stdRptChanged || r.2 }

/-- `kbapp_stdRptProcEvtKey`: dispatch a standard-key event on the up/down
flag. -/
def kbapp_stdRptProcEvtKey (cfg : KbConfig) (s : KbState)
    (upDownFlag translationCode : Nat) : KbState × List Tx :=
  if upDownFlag = KEY_DOWN then
    kbapp_stdRptProcEvtKeyDown cfg s translationCode
  else
    (kbapp_stdRptProcEvtKeyUp s translationCode, [])

/-- `kbapp_stdRptProcEvtModKey`: set/clear modifier bits in the standard
report, maintaining `modKeysInStdRpt`, marking the report changed only on
an actual state change. -/
def kbapp_stdRptProcEvtModKey (s : KbState) (upDownFlag translationCode : Nat) :
    KbState :=
  if upDownFlag = KEY_DOWN then
    if s.stdRptModifierKeys &&& translationCode = 0 then
      { s with stdRptModifierKeys := s.stdRptModifierKeys ||| translationCode,
               stdRptChanged := true,
               modKeysInStdRpt := s.modKeysInStdRpt + 1 }
    else s
  else
    if s.stdRptModifierKeys &&& translationCode ≠ 0 then
      { s with stdRptModifierKeys := s.stdRptModifierKeys &&& (255 ^^^ translationCode),
               stdRptChanged := true,
               modKeysInStdRpt := s.modKeysInStdRpt - 1 }
    else s

/-- `kbapp_bitRptProcEvtKey`: set/clear one bit of the bit-mapped report.
`rowCol` encodes the byte row in the upper bits and the bit column in the
low 3 bits; `bitOffsetToByteValue[col]` is `2 ^ col`.  Out-of-range values
(`rowCol ≥ numBitMappedKeys`) are ignored.  The counter and changed flag
move only on an actual bit change. -/
def kbapp_bitRptProcEvtKey (cfg : KbConfig) (s : KbState)
    (upDownFlag rowCol : Nat) : KbState :=
  if rowCol < cfg.numBitMappedKeys then
    let row := rowCol >>> 3
    let keyMask := 2 ^ (rowCol &&& 0x07)
    if upDownFlag = KEY_DOWN then
      if s.bitMappedKeys.getD row 0 &&& keyMask = 0 then
        { s with bitMappedKeys :=
                   s.bitMappedKeys.set row (s.bitMappedKeys.getD row 0 ||| keyMask),
                 keysInBitRpt := s.keysInBitRpt + 1,
                 bitRptChanged := true }
      else s
    else
      if s.bitMappedKeys.getD row 0 &&& keyMask ≠ 0 then
        { s with bitMappedKeys :=
                   s.bitMappedKeys.set row (s.bitMappedKeys.getD row 0 &&& (255 ^^^ keyMask)),
                 keysInBitRpt := s.keysInBitRpt - 1,
                 bitRptChanged := true }
      else s
  else s

/-- `kbapp_slpRptProcEvtKey`: set/clear one bit of the sleep status byte,
marking the report changed only on an actual change. -/
def kbapp_slpRptProcEvtKey (s : KbState) (upDownFlag slpBitMask : Nat) : KbState :=
  if upDownFlag = KEY_DOWN then
    if s.sleepVal &&& slpBitMask = 0 then
      { s with sleepVal := s.sleepVal ||| slpBitMask, slpRptChanged := true }
    else s
  else
    if s.sleepVal &&& slpBitMask ≠ 0 then
      { s with sleepVal := s.sleepVal &&& (255 ^^^ slpBitMask), slpRptChanged := true }
    else s

/-- `kbapp_funcLockToggle`: toggle the func-lock state, refresh the
func-lock report status byte (state OR the event flag 2) and mark the
func-lock report changed. -/
def kbapp_funcLockToggle (s : KbState) : KbState :=
  let st := if s.funcLockState = FUNC_LOCK_STATE_OFF
            then FUNC_LOCK_STATE_ON else FUNC_LOCK_STATE_OFF
  { s with funcLockState := st,
           funcLockRptStatus := st ||| 2,
           funcLockRptChanged := true }

/-- `kbapp_funcLockProcEvtKey`: func-lock key handler.  Events are ignored
entirely during recovery or outside report protocol.  A down event is
processed only while the key is tracked up: it tracks the key down, toggles
the lock state and clears `toggleStateOnKeyUp`.  An up event is processed
only while the key is tracked down: it tracks the key up and toggles again
when `toggleStateOnKeyUp` was set by an intervening dependent key. -/
def kbapp_funcLockProcEvtKey (s : KbState) (upDownFlag : Nat) : KbState :=
  if s.recoveryInProgress = 0 ∧ s.protocol = PROTOCOL_REPORT then
    if upDownFlag = KEY_DOWN then
      if s.funcLockKepPosition = FUNC_LOCK_KEY_UP then
        let s := { s with funcLockKepPosition := FUNC_LOCK_KEY_DOWN }
        let s := kbapp_funcLockToggle s
        { s with toggleStateOnKeyUp := false }
      else s
    else
      if s.funcLockKepPosition = FUNC_LOCK_KEY_DOWN then
        let s := { s with funcLockKepPosition := FUNC_LOCK_KEY_UP }
        if s.toggleStateOnKeyUp then kbapp_funcLockToggle s else s
      else s
  else s

/-- `kbapp_funcLockProcEvtDepKey`: func-lock dependent key handler.  A down
event routes to the standard handler when func-lock is ON or the protocol
is boot, otherwise to the bit-mapped handler, and then unconditionally sets
`toggleStateOnKeyUp`.  An up event is sent to both handlers. -/
def kbapp_funcLockProcEvtDepKey (cfg : KbConfig) (s : KbState)
    (upDownFlag funcLockDepKeyTableIndex : Nat) : KbState × List Tx :=
  let e := kbFuncLockDepKeyTransTab.getD funcLockDepKeyTableIndex ⟨0, 0⟩
  if upDownFlag = KEY_DOWN then
    let r :=
      if s.funcLockState = FUNC_LOCK_STATE_ON ∨ s.protocol = PROTOCOL_BOOT then
        kbapp_stdRptProcEvtKey cfg s upDownFlag e.stdRptCode
      else
        (kbapp_bitRptProcEvtKey cfg s upDownFlag e.bitRptCode, [])
    ({ r.1 with toggleStateOnKeyUp := true }, r.2)
  else
    let r := kbapp_stdRptProcEvtKey cfg s upDownFlag e.stdRptCode
    (kbapp_bitRptProcEvtKey cfg r.1 upDownFlag e.bitRptCode, r.2)

/-- `kbapp_stdRptSend`: transmit the standard report and mark it sent. -/
def kbapp_stdRptSend (s : KbState) : KbState × List Tx :=
  ({ s with stdRptChanged := false }, [Tx.std])

/-- `kbapp_bitRptSend`: transmit the bit-mapped report and mark it sent. -/
def kbapp_bitRptSend (s : KbState) : KbState × List Tx :=
  ({ s with bitRptChanged := false }, [Tx.bit])

/-- `kbapp_slpRptSend`: transmit the sleep report and mark it sent. -/
def kbapp_slpRptSend (s : KbState) : KbState × List Tx :=
  ({ s with slpRptChanged := false }, [Tx.sleep])

/-- `kbapp_funcLockRptSend`: transmit the func-lock report and mark it
sent. -/
def kbapp_funcLockRptSend (s : KbState) : KbState × List Tx :=
  ({ s with funcLockRptChanged := false }, [Tx.funcLock])

/-- `kbapp_scrollRptSend`: transmit the scroll report and mark it sent. -/
def kbapp_scrollRptSend (s : KbState) : KbState × List Tx :=
  ({ s with scrollRptChanged := false }, [Tx.scroll])

/-- `kbapp_pinRptSend`: transmit the pin report and mark it sent. -/
def kbapp_pinRptSend (s : KbState) : KbState × List Tx :=
  ({ s with pinRptChanged := false }, [Tx.pin])

/-- `kbapp_txModifiedKeyReports`: transmit every report currently flagged
changed — but nothing at all while recovery is in progress, and only the
standard report outside report protocol. -/
def kbapp_txModifiedKeyReports (s : KbState) : KbState × List Tx :=
  if s.recoveryInProgress = 0 then
    let r1 := if s.stdRptChanged then kbapp_stdRptSend s else (s, [])
    if r1.1.protocol = PROTOCOL_REPORT then
      let r2 := if r1.1.bitRptChanged then kbapp_bitRptSend r1.1 else (r1.1, [])
      let r3 := if r2.1.slpRptChanged then kbapp_slpRptSend r2.1 else (r2.1, [])
      let r4 := if r3.1.funcLockRptChanged then kbapp_funcLockRptSend r3.1 else (r3.1, [])
      let r5 := if r4.1.scrollRptChanged then kbapp_scrollRptSend r4.1 else (r4.1, [])
      (r5.1, r1.2 ++ r2.2 ++ r3.2 ++ r4.2 ++ r5.2)
    else
      (r1.1, r1.2)
  else
    (s, [])

/-- `kbapp_setProtocol`: when the protocol actually changes and the new
protocol is report, clear the bit-mapped, sleep and scroll reports and mark
the func-lock key position up; in every case store the new protocol. -/
def kbapp_setProtocol (s : KbState) (newProtocol : Nat) : KbState :=
  let s1 :=
    if s.protocol ≠ newProtocol ∧ newProtocol = PROTOCOL_REPORT then
      { kbapp_scrollRptClear (kbapp_slpRptClear (kbapp_bitRptClear s)) with
        funcLockKepPosition := FUNC_LOCK_KEY_UP }
    else s
  { s1 with protocol := newProtocol }

/-- `kbapp_pollActivityScroll`: fold one polled scroll count into the
state.  A non-zero count is (optionally) negated, then, with scaling
configured, added to the `int16_t` fractional accumulator from which
`kbapp_scaleValue` extracts the whole part as a queued motion event;
without scaling the raw count is queued.  A zero count bumps the
inactivity counter and discards the fractional remainder once it reaches
the configured threshold. -/
def kbapp_pollActivityScroll (cfg : KbConfig) (s : KbState)
    (scrollCurrent : Int) : KbState :=
  if scrollCurrent ≠ 0 then
    let sc := if cfg.negateScroll then toInt16 (-scrollCurrent) else scrollCurrent
    if cfg.scrollScale ≠ 0 then
      let frac := toInt16 (s.scrollFractional + sc)
      let r := kbapp_scaleValue frac cfg.scrollScale
      { s with scrollFractional := r.2, pollsSinceScroll := 0,
               eventQueue := s.eventQueue ++ [HidEvent.motion r.1] }
    else
      { s with eventQueue := s.eventQueue ++ [HidEvent.motion sc] }
  else
    if cfg.pollsToKeepFracScrollData ≠ 0 then
      if s.pollsSinceScroll + 1 ≥ cfg.pollsToKeepFracScrollData then
        { s with scrollFractional := 0, pollsSinceScroll := 0 }
      else
        { s with pollsSinceScroll := s.pollsSinceScroll + 1 }
    else s

/-- The body of the `kbapp_pollActivityKey` drain loop: each keyscan driver
event (scan code, up/down flag) is appended to the event queue, except that
connect-button events are diverted to the (external) connect-button handler
and an end-of-scan-cycle marker directly following a connect-button event
is suppressed. -/
def pollKeyLoop (cfg : KbConfig) (suppress : Bool) (queue : List HidEvent) :
    List (Nat × Nat) → List HidEvent
  | [] => queue
  | (keyCode, upDownFlag) :: rest =>
    if keyCode = cfg.connectButtonScanIndex then
      pollKeyLoop cfg suppress queue rest
    else if keyCode = END_OF_SCAN_CYCLE then
      pollKeyLoop cfg true
        (if suppress then queue else queue ++ [HidEvent.key upDownFlag keyCode]) rest
    else
      pollKeyLoop cfg false (queue ++ [HidEvent.key upDownFlag keyCode]) rest

/-- `kbapp_pollActivityKey`: queue all key events pending in the keyscan
driver (given here as the list of (scan code, up/down flag) pairs the
driver returns this poll). -/
def kbapp_pollActivityKey (cfg : KbConfig) (s : KbState)
    (driverEvents : List (Nat × Nat)) : KbState :=
  { s with eventQueue := pollKeyLoop cfg true s.eventQueue driverEvents }

/-- The key-entry event classes fed to `kbapp_pinEntryEvent`
(`KEY_ENTRY_EVENT_*`). -/
inductive KeyEntryEvent where
  | start
  | char
  | backspace
  | restart
  | stop
  deriving Repr, DecidableEq

/-- `PIN_ENTRY_EVENT_INVALID`: the sentinel row-0 code that suppresses a
legacy pin-report update.  (The numeric codes of the pin-entry event
enumeration live in a header outside `src/`; only the invalid sentinel is
ever compared against, so the values here need only be distinct.) -/
def PIN_ENTRY_EVENT_INVALID : Nat := 0

/-- `pinCodeEventTransTab` row 0 (legacy pin mode): key-entry event class to
legacy pin report code. -/
def pinCodeEventTransTabLegacy : KeyEntryEvent → Nat
  | .start => PIN_ENTRY_EVENT_INVALID
  | .char => 1
  | .backspace => 2
  | .restart => 3
  | .stop => PIN_ENTRY_EVENT_INVALID

/-- `kbapp_pinRptUpdate`: store a new code in the pin report and flag it
changed. -/
def kbapp_pinRptUpdate (s : KbState) (pinEntryCode : Nat) : KbState :=
  { s with pinReportCode := pinEntryCode, pinRptChanged := true }

/-- `kbapp_pinEntryEvent`: in legacy pin mode, translate the key-entry
event class through row 0 of the translation table and update the pin
report unless the code is the invalid sentinel; in pass-key mode the event
goes to the transport callback (external, no state change); outside pin
entry nothing happens. -/
def kbapp_pinEntryEvent (s : KbState) (keyEntry : KeyEntryEvent) : KbState :=
  match s.pinCodeEntryInProgress with
  | .legacyPin =>
    let newCode := pinCodeEventTransTabLegacy keyEntry
    if newCode ≠ PIN_ENTRY_EVENT_INVALID then kbapp_pinRptUpdate s newCode else s
  | .passKey => s
  | .none => s

/-- The digit decoding of the default case of `kbapp_handlePinEntry`:
`some d` when the usage code is keyboard or keypad digit `d`
(the C code uses the sentinel `0xff` for "not a digit"). -/
def pinDigitOfUsage (usbUsageCode : Nat) : Option Nat :=
  if usbUsageCode = USB_USAGE_0 ∨ usbUsageCode = USB_USAGE_KP_0 then
    some 0
  else if USB_USAGE_1 ≤ usbUsageCode ∧ usbUsageCode ≤ USB_USAGE_9 then
    some (usbUsageCode - USB_USAGE_1 + 1)
  else if USB_USAGE_KP_1 ≤ usbUsageCode ∧ usbUsageCode ≤ USB_USAGE_KP_9 then
    some (usbUsageCode - USB_USAGE_KP_1 + 1)
  else
    none

/-- Processing of one standard-key down usage code inside
`kbapp_handlePinEntry` (the `switch (usbUsageCode)` block): backspace and
delete drop the last accumulated character when any exist, escape clears
the buffer, enter and keypad-enter latch `enterKeyPressed`, and a digit is
appended as an ASCII character only when the buffer is below
`maxPinCodeSize`. -/
def pinEntryProcDownUsage (s : KbState) (usbUsageCode : Nat) : KbState :=
  if usbUsageCode = USB_USAGE_BACKSPACE ∨ usbUsageCode = USB_USAGE_DELETE then
    if s.pinCodeBuffer.length ≠ 0 then
      kbapp_pinEntryEvent { s with pinCodeBuffer := s.pinCodeBuffer.dropLast }
        KeyEntryEvent.backspace
    else s
  else if usbUsageCode = USB_USAGE_ESCAPE then
    kbapp_pinEntryEvent { s with pinCodeBuffer := [] } KeyEntryEvent.restart
  else if usbUsageCode = USB_USAGE_ENTER ∨ usbUsageCode = USB_USAGE_KP_ENTER then
    { s with enterKeyPressed := usbUsageCode }
  else
    match pinDigitOfUsage usbUsageCode with
    | some d =>
      if s.pinCodeBuffer.length < s.maxPinCodeSize then
        kbapp_pinEntryEvent
          { s with pinCodeBuffer := s.pinCodeBuffer ++ [d + 48] }
          KeyEntryEvent.char
      else s
    | none => s

/-- The drain loop of `kbapp_handlePinEntry` over the queued events.  Key
events are consumed one at a time; a key-down with no enter latched reads
`kbKeyConfig[keyCode]` (`none` when the scan code is outside the table —
the out-of-bounds read of the C code) and processes standard keys through
`pinEntryProcDownUsage`; any other key event, when an enter key is latched,
again reads `kbKeyConfig[keyCode]` and on a translation code equal to the
latched code completes pin entry: the buffer goes to the authenticating
transport (external), the mode flag is cleared, everything is flushed and
the loop exits at once.  Non-key events are discarded. -/
def pinEntryLoop (keys : List KbKeyConfig) (s : KbState) :
    List HidEvent → Option KbState
  | [] => some s
  | ev :: rest =>
    match ev with
    | HidEvent.key upDownFlag keyCode =>
      if upDownFlag = KEY_DOWN ∧ s.enterKeyPressed = 0 then
        match keys.get? keyCode with
        | none => none
        | some kc =>
          if kc.type = KEY_TYPE_STD then
            pinEntryLoop keys (pinEntryProcDownUsage s kc.translationValue) rest
          else
            pinEntryLoop keys s rest
      else
        if s.enterKeyPressed ≠ 0 then
          match keys.get? keyCode with
          | none => none
          | some kc =>
            if kc.translationValue = s.enterKeyPressed then
              let s1 :=
                match s.pinCodeEntryInProgress with
                | .legacyPin => s
                | .passKey => kbapp_pinEntryEvent s KeyEntryEvent.stop
                | .none => s
              some (kbapp_flushUserInput
                { s1 with pinCodeEntryInProgress := PinEntryMode.none })
            else
              pinEntryLoop keys s rest
        else
          pinEntryLoop keys s rest
    | _ => pinEntryLoop keys s rest

/-- `kbapp_handlePinEntry`: drain the whole event queue through the
pin-entry loop (`none` marks the out-of-bounds `kbKeyConfig` read). -/
def kbapp_handlePinEntry (keys : List KbKeyConfig) (s : KbState) : Option KbState :=
  pinEntryLoop keys { s with eventQueue := [] } s.eventQueue

/-- The per-event body of the `kbapp_procEvtKey` drain loop: a key event
whose scan code is inside the key-configuration table is dispatched on its
key type; otherwise an end-of-scan-cycle marker transmits the modified
reports, and any other scan code is a ghost key that triggers the error
response.  Unlike the pin-entry loop, the table is only read after the
bound check, so this dispatch is total. -/
def kbapp_procEvtKeyOne (keys : List KbKeyConfig) (cfg : KbConfig) (s : KbState)
    (upDownFlag keyCode : Nat) : KbState × List Tx :=
  if keyCode < keys.length then
    let kc := keys.getD keyCode ⟨0, 0⟩
    if kc.type = KEY_TYPE_STD then
      kbapp_stdRptProcEvtKey cfg s upDownFlag kc.translationValue
    else if kc.type = KEY_TYPE_MODIFIER then
      (kbapp_stdRptProcEvtModKey s upDownFlag kc.translationValue, [])
    else if kc.type = KEY_TYPE_BIT_MAPPED then
      (kbapp_bitRptProcEvtKey cfg s upDownFlag kc.translationValue, [])
    else if kc.type = KEY_TYPE_SLEEP then
      (kbapp_slpRptProcEvtKey s upDownFlag kc.translationValue, [])
    else if kc.type = KEY_TYPE_FUNC_LOCK then
      (kbapp_funcLockProcEvtKey s upDownFlag, [])
    else if kc.type = KEY_TYPE_FUNC_LOCK_DEP then
      kbapp_funcLockProcEvtDepKey cfg s upDownFlag kc.translationValue
    else
      (s, [])
  else if keyCode = END_OF_SCAN_CYCLE then
    kbapp_txModifiedKeyReports s
  else
    kbapp_procErrKeyscan cfg s

/-- A neutral concrete state (power-on-like: report protocol, everything
cleared) used to instantiate theorems on concrete inputs. -/
def baseState : KbState where
  protocol := PROTOCOL_REPORT
  stdRptModifierKeys := 0
  stdRptKeyCodes := []
  modKeysInStdRpt := 0
  stdRptChanged := false
  bitMappedKeys := [0, 0]
  keysInBitRpt := 0
  bitRptChanged := false
  sleepVal := 0
  slpRptChanged := false
  funcLockState := FUNC_LOCK_STATE_OFF
  funcLockKepPosition := FUNC_LOCK_KEY_UP
  toggleStateOnKeyUp := false
  funcLockRptStatus := 2
  funcLockRptChanged := false
  scrollMotionAxis0 := 0
  scrollRptChanged := false
  scrollFractional := 0
  pollsSinceScroll := 0
  pinReportCode := 0
  pinRptChanged := false
  pinCodeBuffer := []
  maxPinCodeSize := 16
  enterKeyPressed := 0
  pinCodeEntryInProgress := PinEntryMode.none
  recoveryInProgress := 0
  eventQueue := []

/-- A concrete configuration with scroll scaling by 2 bits (divide by 4),
used for the scroll-scaling example runs. -/
def scrollCfg : KbConfig where
  maxKeysInStdRpt := 6
  numBitMappedKeys := 16
  recoveryPollCount := 4
  scrollScale := 2
  negateScroll := false
  scrollCombining := false
  pollsToKeepFracScrollData := 0
  connectButtonScanIndex := 200

/-- Concrete dirtied boot-protocol state used to instantiate the
protocol-switch theorem. -/
def bootDirtyState : KbState :=
  { baseState with
    protocol := PROTOCOL_BOOT,
    sleepVal := 5,
    keysInBitRpt := 2,
    bitMappedKeys := [3, 0],
    scrollRptChanged := true,
    scrollMotionAxis0 := 7,
    funcLockKepPosition := FUNC_LOCK_KEY_DOWN }

/-- Concrete state with six distinct standard keys held (the configured
maximum of `scrollCfg`). -/
def fullStdState : KbState :=
  { baseState with stdRptKeyCodes := [4, 5, 6, 7, 8, 9] }

/-- Concrete recovering state (countdown 3) with every report marked
changed. -/
def recoveringState : KbState :=
  { baseState with
    recoveryInProgress := 3,
    stdRptChanged := true,
    bitRptChanged := true,
    slpRptChanged := true,
    funcLockRptChanged := true,
    scrollRptChanged := true }

/-- Concrete state with the func-lock and scroll reports marked changed. -/
def dirtyFlagsState : KbState :=
  { baseState with funcLockRptChanged := true, scrollRptChanged := true }

/-- Number of set bits among the low 8 bits of a byte value. -/
def countBits8 (b : Nat) : Nat :=
  List.countP (fun i => b.testBit i) (List.range 8)

/-- The bit-mapped report invariant of the data model: `keysInBitRpt`
equals the total number of set bits in the report's byte array, and each
cell holds a byte value (`uint8_t` in the C struct). -/
def bitRptInv (s : KbState) : Prop :=
  s.keysInBitRpt = (s.bitMappedKeys.map countBits8).sum ∧
  ∀ b ∈ s.bitMappedKeys, b < 256

/-- Concrete state with a single standard key (usage code 4) held. -/
def oneKeyState : KbState :=
  { baseState with stdRptKeyCodes := [4] }

/-- Concrete state with two standard keys held. -/
def twoKeyState : KbState :=
  { baseState with stdRptKeyCodes := [4, 5] }

/-- Concrete key-configuration table for pin-entry scenarios: scan code 1
is the digit 1, scan code 2 is Enter. -/
def pinKeys : List KbKeyConfig :=
  [⟨KEY_TYPE_NONE, 0⟩, ⟨KEY_TYPE_STD, USB_USAGE_1⟩, ⟨KEY_TYPE_STD, USB_USAGE_ENTER⟩]

/-- Concrete state in legacy pin-entry mode with an empty buffer. -/
def pinModeState : KbState :=
  { baseState with pinCodeEntryInProgress := PinEntryMode.legacyPin }

/-- Concrete pin-entry state whose buffer is already at the maximum. -/
def pinFullState : KbState :=
  { baseState with
    pinCodeEntryInProgress := PinEntryMode.legacyPin,
    pinCodeBuffer := [49, 49],
    maxPinCodeSize := 2 }

/-- Concrete pin-entry state holding one accumulated character. -/
def pinOneCharState : KbState :=
  { baseState with
    pinCodeEntryInProgress := PinEntryMode.legacyPin,
    pinCodeBuffer := [49] }

/-- Concrete pin-entry state with Enter latched and its key-up queued. -/
def pinEnterState : KbState :=
  { baseState with
    pinCodeEntryInProgress := PinEntryMode.legacyPin,
    enterKeyPressed := USB_USAGE_ENTER,
    eventQueue := [HidEvent.key KEY_UP 2] }

-- ==================================================================
-- Theorems
-- ==================================================================

/-- `toInt16` is the identity on values already in the `int16_t` range. -/
theorem toInt16_eq_self {x : Int} (h1 : -(2 ^ 15) ≤ x) (h2 : x < 2 ^ 15) :
    toInt16 x = x := by
  unfold toInt16
  have hlo : (0 : Int) ≤ x + 2 ^ 15 := by omega
  have hhi : x + 2 ^ 15 < 2 ^ 16 := by omega
  rw [Int.emod_eq_of_lt hlo hhi]
  omega

/-- Arithmetic shift right of a non-negative integer is the natural-number
shift of its magnitude. -/
theorem sar_nonneg (x : Int) (s : Nat) (h : 0 ≤ x) :
    sar x s = ((x.toNat >>> s : Nat) : Int) := by
  unfold sar
  rw [Nat.shiftRight_eq_div_pow, Int.ofNat_fdiv, Int.toNat_of_nonneg h]
  norm_num

/-- Closed form of `kbapp_scaleValue` on accumulator values of magnitude
below `2 ^ 15` (all of `int16_t` except `-32768`): the quotient is the
magnitude shifted right with the sign of the input restored, and the new
accumulator value is the input minus the quotient scaled back up. -/
theorem kbapp_scaleValue_spec (v : Int) (s : Nat)
    (h1 : -(2 ^ 15) < v) (h2 : v < 2 ^ 15) :
    kbapp_scaleValue v s =
      ((if v < 0 then -1 else 1) * ((v.natAbs >>> s : Nat) : Int),
       v - (if v < 0 then -1 else 1) * ((v.natAbs >>> s : Nat) : Int) * 2 ^ s) := by
  have hQmulN : (v.natAbs >>> s) * 2 ^ s ≤ v.natAbs := by
    rw [Nat.shiftRight_eq_div_pow]
    exact Nat.div_mul_le_self _ _
  have hQP : ((v.natAbs >>> s : Nat) : Int) * 2 ^ s ≤ (v.natAbs : Int) := by
    calc ((v.natAbs >>> s : Nat) : Int) * 2 ^ s
        = (((v.natAbs >>> s) * 2 ^ s : Nat) : Int) := by push_cast; ring
      _ ≤ (v.natAbs : Int) := by exact_mod_cast hQmulN
  have hQPnn : 0 ≤ ((v.natAbs >>> s : Nat) : Int) * 2 ^ s := by positivity
  have hQnn : (0 : Int) ≤ ((v.natAbs >>> s : Nat) : Int) := by positivity
  have hQle : ((v.natAbs >>> s : Nat) : Int) ≤ (v.natAbs : Int) := by
    have : v.natAbs >>> s ≤ v.natAbs := by
      rw [Nat.shiftRight_eq_div_pow]
      exact Nat.div_le_self _ _
    exact_mod_cast this
  simp only [kbapp_scaleValue]
  rcases lt_or_ge v 0 with hv | hv
  · -- negative input: magnitude is -v
    have hnat : (-v).toNat = v.natAbs := by omega
    have hsar : sar (-v) s = ((v.natAbs >>> s : Nat) : Int) := by
      rw [sar_nonneg (-v) s (by omega), hnat]
    rw [if_pos hv, toInt16_eq_self (by omega) (by omega), hsar]
    by_cases hQ : ((v.natAbs >>> s : Nat) : Int) = 0
    · rw [if_neg (by omega)]
      rw [hQ]
      norm_num
    · rw [if_pos hQ, if_pos hv]
      rw [toInt16_eq_self (by omega) (by omega)]
      have hform : v - -((v.natAbs >>> s : Nat) : Int) * 2 ^ s =
          v + ((v.natAbs >>> s : Nat) : Int) * 2 ^ s := by ring
      rw [hform, toInt16_eq_self (by omega) (by omega)]
      simp only [Prod.mk.injEq, if_pos hv]
      constructor <;> ring
  · -- non-negative input
    have hnat : v.toNat = v.natAbs := by omega
    have hsar : sar v s = ((v.natAbs >>> s : Nat) : Int) := by
      rw [sar_nonneg v s hv, hnat]
    rw [if_neg (not_lt.mpr hv), toInt16_eq_self (by omega) (by omega), hsar]
    by_cases hQ : ((v.natAbs >>> s : Nat) : Int) = 0
    · rw [if_neg (by omega)]
      rw [hQ]
      norm_num
    · rw [if_pos hQ, if_neg (not_lt.mpr hv)]
      rw [toInt16_eq_self (by omega) (by omega)]
      simp only [Prod.mk.injEq, if_neg (not_lt.mpr hv)]
      constructor <;> ring

/-- Claim C5, counterexample as stated: `-32768` is an `int16_t` value,
but `kbapp_scaleValue` applied to it with shift 1 returns `+16384` — a
positive quotient for a negative accumulator, not `|v| >> s` with the sign
of `v` (which would be `-16384`): the C code's `result = -*val` wraps
`32768` back to `-32768`, the arithmetic shift keeps it negative, and the
sign-restore step then negates it to a positive value.  The accumulator is
left at `0`, not at `v - (q << s) = -32768 - 32768` (which the `int16_t`
store wraps to `0` — equal only by wrap-around). -/
theorem c5_scaleValue_counterexample :
    (-(2 ^ 15) : Int) ≤ -32768 ∧ (-32768 : Int) < 2 ^ 15 ∧
    (kbapp_scaleValue (-32768) 1).1 = 16384 ∧
    ¬ ((kbapp_scaleValue (-32768) 1).1 =
        (if (-32768 : Int) < 0 then -1 else 1) *
          ((Int.natAbs (-32768) >>> 1 : Nat) : Int)) := by
  refine ⟨by norm_num, by norm_num, by decide, by decide⟩

/-- Claim C5 (amended): for every `int16_t` accumulator value `v` except
`-32768` (whose magnitude is not itself representable) and every shift
amount `s`, `kbapp_scaleValue` returns a quotient whose magnitude is
`|v| >> s` with the sign of `v`, leaves the accumulator at `v - (q << s)`,
and is sign-symmetric (`-v` yields `-q` and the negated remainder).
Feeding deltas `3,3,3,3` through the scroll accumulator at scale factor 2
emits the whole-number outputs `0,1,1,1` with final remainder `0`, and
`-3,-3,-3,-3` emits `0,-1,-1,-1` with final remainder `0`. -/
theorem c5_scaleValue_amended (v : Int) (s : Nat)
    (hlo : -32768 < v) (hhi : v < 32768) :
    ((kbapp_scaleValue v s).1 =
        (if v < 0 then -1 else 1) * ((v.natAbs >>> s : Nat) : Int) ∧
     (kbapp_scaleValue v s).2 = v - (kbapp_scaleValue v s).1 * 2 ^ s) ∧
    ((kbapp_scaleValue (-v) s).1 = -(kbapp_scaleValue v s).1 ∧
     (kbapp_scaleValue (-v) s).2 = -(kbapp_scaleValue v s).2) ∧
    ((List.foldl (fun st d => kbapp_pollActivityScroll scrollCfg st d)
        baseState [3, 3, 3, 3]).eventQueue =
      [HidEvent.motion 0, HidEvent.motion 1, HidEvent.motion 1, HidEvent.motion 1] ∧
     (List.foldl (fun st d => kbapp_pollActivityScroll scrollCfg st d)
        baseState [3, 3, 3, 3]).scrollFractional = 0 ∧
     (List.foldl (fun st d => kbapp_pollActivityScroll scrollCfg st d)
        baseState [-3, -3, -3, -3]).eventQueue =
      [HidEvent.motion 0, HidEvent.motion (-1), HidEvent.motion (-1),
       HidEvent.motion (-1)] ∧
     (List.foldl (fun st d => kbapp_pollActivityScroll scrollCfg st d)
        baseState [-3, -3, -3, -3]).scrollFractional = 0) := by
  have h := kbapp_scaleValue_spec v s (by omega) (by omega)
  have h2 := kbapp_scaleValue_spec (-v) s (by omega) (by omega)
  rw [Int.natAbs_neg] at h2
  refine ⟨⟨?_, ?_⟩, ⟨?_, ?_⟩, by decide, by decide, by decide, by decide⟩
  · rw [h]
  · rw [h]
  · rw [h, h2]
    rcases lt_trichotomy v 0 with hv | hv | hv
    · rw [if_pos hv, if_neg (by omega : ¬(-v < 0))]
      ring
    · subst hv
      norm_num
    · rw [if_neg (by omega : ¬(v < 0)), if_pos (by omega : -v < 0)]
      ring
  · rw [h, h2]
    rcases lt_trichotomy v 0 with hv | hv | hv
    · rw [if_pos hv, if_neg (by omega : ¬(-v < 0))]
      ring
    · subst hv
      norm_num
    · rw [if_neg (by omega : ¬(v < 0)), if_pos (by omega : -v < 0)]
      ring

/-- Claim C5, witness: the amended theorem applied at `v = 3`, `s = 2`
(the running example of the spec: quotient 0, remainder 3). -/
theorem c5_scaleValue_witness :
    (-32768 : Int) < 3 ∧ (3 : Int) < 32768 ∧
    ((kbapp_scaleValue 3 2).1 =
        (if (3 : Int) < 0 then -1 else 1) * ((Int.natAbs 3 >>> 2 : Nat) : Int) ∧
     (kbapp_scaleValue 3 2).2 = 3 - (kbapp_scaleValue 3 2).1 * 2 ^ 2) :=
  ⟨by norm_num, by norm_num, (c5_scaleValue_amended 3 2 (by norm_num) (by norm_num)).1⟩

/-- Claim C7: for every prior state, a set-protocol request that changes
the protocol from boot to report clears the bit-mapped report (bits and
`keysInBitRpt`), the sleep report and the scroll report and sets the
func-lock key position to up; a request that does not change the protocol,
or that switches to boot, performs none of these clears (the state is
unchanged except for the stored protocol). -/
theorem c7_setProtocol (s : KbState) (newProtocol : Nat) :
    (s.protocol = PROTOCOL_BOOT → newProtocol = PROTOCOL_REPORT →
      ((kbapp_setProtocol s newProtocol).bitMappedKeys =
          List.replicate s.bitMappedKeys.length 0 ∧
       (kbapp_setProtocol s newProtocol).keysInBitRpt = 0 ∧
       (kbapp_setProtocol s newProtocol).sleepVal = 0 ∧
       (kbapp_setProtocol s newProtocol).scrollMotionAxis0 = 0 ∧
       (kbapp_setProtocol s newProtocol).scrollRptChanged = false ∧
       (kbapp_setProtocol s newProtocol).funcLockKepPosition = FUNC_LOCK_KEY_UP ∧
       (kbapp_setProtocol s newProtocol).protocol = newProtocol)) ∧
    ((s.protocol = newProtocol ∨ newProtocol = PROTOCOL_BOOT) →
      kbapp_setProtocol s newProtocol = { s with protocol := newProtocol }) := by
  constructor
  · intro hb hr
    have hne : s.protocol ≠ newProtocol := by
      rw [hb, hr]
      simp [PROTOCOL_BOOT, PROTOCOL_REPORT]
    have hnotrep : ¬ s.protocol = PROTOCOL_REPORT := by
      rw [hb]
      simp [PROTOCOL_BOOT, PROTOCOL_REPORT]
    simp [kbapp_setProtocol, hne, hr, hnotrep, kbapp_bitRptClear,
      kbapp_slpRptClear, kbapp_scrollRptClear]
  · intro hor
    have hguard : ¬(s.protocol ≠ newProtocol ∧ newProtocol = PROTOCOL_REPORT) := by
      rcases hor with h | h
      · simp [h]
      · rw [h]
        simp [PROTOCOL_BOOT, PROTOCOL_REPORT]
    simp [kbapp_setProtocol, hguard]

/-- Claim C7, witness: a boot-to-report switch on a dirtied concrete state
clears the bit-mapped, sleep and scroll state and forces the func-lock key
up. -/
theorem c7_setProtocol_witness :
    (kbapp_setProtocol
bootDirtyState PROTOCOL_REPORT).bitMappedKeys = List.replicate 2 0 ∧
    (kbapp_setProtocol
bootDirtyState PROTOCOL_REPORT).keysInBitRpt = 0 ∧
    (kbapp_setProtocol
bootDirtyState PROTOCOL_REPORT).sleepVal = 0 ∧
    (kbapp_setProtocol
bootDirtyState PROTOCOL_REPORT).scrollMotionAxis0 = 0 ∧
    (kbapp_setProtocol
bootDirtyState PROTOCOL_REPORT).scrollRptChanged = false ∧
    (kbapp_setProtocol
bootDirtyState PROTOCOL_REPORT).funcLockKepPosition = FUNC_LOCK_KEY_UP ∧
    (kbapp_setProtocol
bootDirtyState PROTOCOL_REPORT).protocol = PROTOCOL_REPORT :=
  (c7_setProtocol bootDirtyState PROTOCOL_REPORT).1 rfl rfl

/-- Claim C1, counterexample as stated: after `kbapp_stdErrResp` runs on a
state whose func-lock and scroll reports were marked changed, those two
changed flags are `false`, not `true`: `kbapp_clearAllReports` clears all
six flags and the error response re-marks only the sleep, bit-mapped and
standard reports, so the func-lock and scroll reports are not retransmitted
after recovery. -/
theorem c1_stdErrResp_counterexample :
    (kbapp_stdErrResp scrollCfg dirtyFlagsState).1.funcLockRptChanged = false ∧
    (kbapp_stdErrResp scrollCfg dirtyFlagsState).1.scrollRptChanged = false := by
  decide

/-- Claim C1 (amended): after the standard error response, the standard,
bit-mapped and sleep reports are marked changed — and are exactly the
reports `kbapp_txModifiedKeyReports` transmits once the recovery countdown
has reached zero (in report protocol) — while the func-lock, scroll and
pin changed flags are left cleared, so those reports are not retransmitted
by the post-recovery catch-up. -/
theorem c1_stdErrResp_marks_reports (cfg : KbConfig) (s : KbState)
    (hrp : s.protocol = PROTOCOL_REPORT) :
    (kbapp_stdErrResp cfg s).1.stdRptChanged = true ∧
    (kbapp_stdErrResp cfg s).1.bitRptChanged = true ∧
    (kbapp_stdErrResp cfg s).1.slpRptChanged = true ∧
    (kbapp_stdErrResp cfg s).1.funcLockRptChanged = false ∧
    (kbapp_stdErrResp cfg s).1.scrollRptChanged = false ∧
    (kbapp_stdErrResp cfg s).1.pinRptChanged = false ∧
    (kbapp_txModifiedKeyReports
        { (kbapp_stdErrResp cfg s).1 with recoveryInProgress := 0 }).2 =
      [Tx.std, Tx.bit, Tx.sleep] := by
  simp [kbapp_stdErrResp, kbapp_clearAllReports, kbapp_stdRptClear,
    kbapp_bitRptClear, kbapp_slpRptClear, kbapp_pinRptClear,
    kbapp_scrollRptClear, kbapp_stdRptRolloverSend, kbapp_txModifiedKeyReports,
    kbapp_stdRptSend, kbapp_bitRptSend, kbapp_slpRptSend, hrp]

/-- Claim C1, witness: the amended theorem at the cleared base state. -/
theorem c1_stdErrResp_marks_reports_witness :
    (kbapp_stdErrResp scrollCfg baseState).1.stdRptChanged = true ∧
    (kbapp_stdErrResp scrollCfg baseState).1.bitRptChanged = true ∧
    (kbapp_stdErrResp scrollCfg baseState).1.slpRptChanged = true ∧
    (kbapp_stdErrResp scrollCfg baseState).1.funcLockRptChanged = false ∧
    (kbapp_stdErrResp scrollCfg baseState).1.scrollRptChanged = false ∧
    (kbapp_stdErrResp scrollCfg baseState).1.pinRptChanged = false ∧
    (kbapp_txModifiedKeyReports
        { (kbapp_stdErrResp scrollCfg baseState).1 with recoveryInProgress := 0 }).2 =
      [Tx.std, Tx.bit, Tx.sleep] :=
  c1_stdErrResp_marks_reports scrollCfg baseState rfl

/-- Claim C3: `kbapp_stdErrResp` sends the rollover report exactly when no
recovery is in progress and always restarts the countdown at the configured
poll count, so a second error before the countdown reaches zero (the count
being positive) sends no further rollover; and pressing one more distinct
standard key than the configured maximum enters this error response through
the standard-report overflow path (`kbapp_stdRptProcOverflow`, a
FW/HW-reset error response). -/
theorem c3_rollover_once_per_recovery (cfg : KbConfig) (s : KbState)
    (tc : Nat) :
    (s.recoveryInProgress = 0 →
      (kbapp_stdErrResp cfg s).2 = [Tx.rollover]) ∧
    (s.recoveryInProgress ≠ 0 →
      (kbapp_stdErrResp cfg s).2 = []) ∧
    (kbapp_stdErrResp cfg s).1.recoveryInProgress = cfg.recoveryPollCount ∧
    (cfg.recoveryPollCount ≠ 0 →
      (kbapp_stdErrResp cfg (kbapp_stdErrResp cfg s).1).2 = []) ∧
    (s.stdRptKeyCodes.length = cfg.maxKeysInStdRpt → tc ∉ s.stdRptKeyCodes →
      kbapp_stdRptProcEvtKeyDown cfg s tc = kbapp_stdErrRespWithFwHwReset cfg s) := by
  refine ⟨?_, ?_, ?_, ?_, ?_⟩
  · intro h
    simp [kbapp_stdErrResp, kbapp_clearAllReports, kbapp_stdRptClear,
      kbapp_bitRptClear, kbapp_slpRptClear, kbapp_pinRptClear,
      kbapp_scrollRptClear, kbapp_stdRptRolloverSend, h]
  · intro h
    simp [kbapp_stdErrResp, kbapp_clearAllReports, kbapp_stdRptClear,
      kbapp_bitRptClear, kbapp_slpRptClear, kbapp_pinRptClear,
      kbapp_scrollRptClear, kbapp_stdRptRolloverSend, h]
  · simp [kbapp_stdErrResp, kbapp_clearAllReports, kbapp_stdRptClear,
      kbapp_bitRptClear, kbapp_slpRptClear, kbapp_pinRptClear,
      kbapp_scrollRptClear]
  · intro h
    simp [kbapp_stdErrResp, kbapp_clearAllReports, kbapp_stdRptClear,
      kbapp_bitRptClear, kbapp_slpRptClear, kbapp_pinRptClear,
      kbapp_scrollRptClear, kbapp_stdRptRolloverSend, h]
  · intro hfull hnotin
    simp [kbapp_stdRptProcEvtKeyDown, hnotin, hfull, kbapp_stdRptProcOverflow]

/-- Claim C3, witness: from a recovered state holding the configured
maximum of 6 distinct keys, a seventh distinct key-down triggers the error
response, which sends the rollover exactly once and arms the countdown;
with the countdown armed a second error response sends nothing. -/
theorem c3_rollover_once_per_recovery_witness :
    ((0 : Nat) = 0 →
      (kbapp_stdErrResp scrollCfg fullStdState).2 = [Tx.rollover]) ∧
    ((6 : Nat) = scrollCfg.maxKeysInStdRpt → (10 : Nat) ∉ [4, 5, 6, 7, 8, 9] →
      kbapp_stdRptProcEvtKeyDown scrollCfg fullStdState 10 =
      kbapp_stdErrRespWithFwHwReset scrollCfg fullStdState) ∧
    (scrollCfg.recoveryPollCount ≠ 0 →
      (kbapp_stdErrResp scrollCfg
        (kbapp_stdErrResp scrollCfg fullStdState).1).2 = []) := by
  have h := c3_rollover_once_per_recovery scrollCfg fullStdState 10
  exact ⟨fun _ => h.1 rfl, fun h6 _ => h.2.2.2.2 h6 (by decide), h.2.2.2.1⟩

/-- Claim C4: in every state with a nonzero recovery countdown — hence at
every step until the countdown reaches zero — `kbapp_txModifiedKeyReports`
transmits nothing and changes nothing, and `kbapp_funcLockProcEvtKey`
ignores the event entirely (in particular the lock state, tracked key
position and `toggleStateOnKeyUp` flag are untouched). -/
theorem c4_recovery_suppression (s : KbState)
    (hrec : s.recoveryInProgress ≠ 0) :
    kbapp_txModifiedKeyReports s = (s, []) ∧
    ∀ upDownFlag : Nat, kbapp_funcLockProcEvtKey s upDownFlag = s := by
  constructor
  · simp [kbapp_txModifiedKeyReports, hrec]
  · intro upDownFlag
    simp [kbapp_funcLockProcEvtKey, hrec]

/-- Claim C4, witness: a recovering state (countdown 3) with every report
marked changed transmits nothing, and a func-lock key-down leaves the state
untouched. -/
theorem c4_recovery_suppression_witness :
    kbapp_txModifiedKeyReports
      recoveringState =
      (recoveringState, []) ∧
    kbapp_funcLockProcEvtKey
      recoveringState KEY_DOWN =
      recoveringState := by
  have h := c4_recovery_suppression
    recoveringState (by decide)
  exact ⟨h.1, h.2 KEY_DOWN⟩

/-- The up-scan is a no-op (and reports no change) when the translation
code occurs nowhere at or beyond the scan position. -/
theorem stdUpScan_no_match (tc : Nat) (l : List Nat) (i : Nat)
    (h : ∀ x ∈ l.drop i, x ≠ tc) : stdUpScan tc l i = (l, false) := by
  rw [stdUpScan]
  split
  · next hi =>
    have hmem : l.getD i 0 ∈ l.drop i := by
      rw [List.getD_eq_getElem l 0 hi, List.drop_eq_getElem_cons hi]
      exact List.mem_cons_self _ _
    rw [if_neg (h _ hmem)]
    exact stdUpScan_no_match tc l (i + 1) (fun x hx => h x (by
      rw [List.drop_eq_getElem_cons hi]
      exact List.mem_cons_of_mem _ hx))
  · rfl
termination_by l.length - i

/-- Scanning `l ++ [tc]` from any position within `l` when `tc` does not
occur in `l`: the single match at the final cell is removed by the swap
(the last live cell is the match itself), restoring exactly `l` and
reporting a change. -/
theorem stdUpScan_fresh_append (tc : Nat) (l : List Nat) (i : Nat)
    (hnot : tc ∉ l) (hi : i ≤ l.length) :
    stdUpScan tc (l ++ [tc]) i = (l, true) := by
  rw [stdUpScan]
  have hlen : (l ++ [tc]).length = l.length + 1 := by simp
  rcases lt_or_eq_of_le hi with hlt | heq
  · have hil : i < (l ++ [tc]).length := by omega
    rw [dif_pos hil]
    have hgl : (l ++ [tc]).getD i 0 = l[i] := by
      rw [List.getD_eq_getElem _ 0 hil]
      exact List.getElem_append_left hlt
    have hne : (l ++ [tc]).getD i 0 ≠ tc := by
      rw [hgl]
      intro hcontra
      exact hnot (hcontra ▸ List.getElem_mem hlt)
    rw [if_neg hne]
    exact stdUpScan_fresh_append tc l (i + 1) hnot hlt
  · have hil : i < (l ++ [tc]).length := by omega
    rw [dif_pos hil]
    have hgl : (l ++ [tc]).getD i 0 = tc := by
      rw [List.getD_eq_getElem _ 0 hil]
      exact List.getElem_concat_length l tc i heq hil
    have hswap : swapRemove (l ++ [tc]) i = l := by
      unfold swapRemove
      have hlast : (l ++ [tc]).getD ((l ++ [tc]).length - 1) 0 = tc := by
        rw [List.getD_eq_getElem _ 0 (by omega)]
        exact List.getElem_concat_length l tc _ (by omega) (by omega)
      rw [hlast, List.set_append_right i tc (by omega)]
      have h0 : i - l.length = 0 := by omega
      rw [h0]
      simp [List.dropLast_concat]
    rw [if_pos hgl, hswap]
    have hrest : stdUpScan tc l (i + 1) = (l, false) := by
      rw [stdUpScan]
      rw [dif_neg (by omega)]
    rw [hrest]
termination_by l.length - i

/-- Claim C2, counterexample as stated: from a state in which usage code 4
is already present in the standard report, a down(4)/up(4) pair (with no
overflow: the down is an idempotent no-op) removes the code, so the key set
after the pair differs from the set before it. -/
theorem c2_counterexample :
    (kbapp_stdRptProcEvtKeyUp
        (kbapp_stdRptProcEvtKeyDown scrollCfg oneKeyState 4).1 4).stdRptKeyCodes ≠
      oneKeyState.stdRptKeyCodes := by
  have h1 : (kbapp_stdRptProcEvtKeyDown scrollCfg oneKeyState 4).1 = oneKeyState := by
    simp [kbapp_stdRptProcEvtKeyDown, oneKeyState, baseState]
  have h2 : stdUpScan 4 [4] 0 = ([], true) :=
    stdUpScan_fresh_append 4 [] 0 (by simp) (by simp)
  rw [h1]
  show (stdUpScan 4 oneKeyState.stdRptKeyCodes 0).1 ≠ oneKeyState.stdRptKeyCodes
  have h3 : oneKeyState.stdRptKeyCodes = [4] := rfl
  rw [h3, h2]
  simp

/-- Claim C2 (amended): for a standard key whose translation code is not
already present in the report, a down/up pair with no intervening overflow
(the report is below the configured maximum) restores the key-code list and
hence the `keysInStdRpt` counter exactly; a down for a code already present
is an idempotent no-op; and an up for a code not present is a silent
no-op. -/
theorem c2_down_up_pairing (cfg : KbConfig) (s : KbState) (tc : Nat) :
    (tc ∉ s.stdRptKeyCodes → s.stdRptKeyCodes.length < cfg.maxKeysInStdRpt →
      ((kbapp_stdRptProcEvtKeyUp
          (kbapp_stdRptProcEvtKeyDown cfg s tc).1 tc).stdRptKeyCodes =
        s.stdRptKeyCodes ∧
       (kbapp_stdRptProcEvtKeyUp
          (kbapp_stdRptProcEvtKeyDown cfg s tc).1 tc).keysInStdRpt =
        s.keysInStdRpt)) ∧
    (tc ∈ s.stdRptKeyCodes →
      kbapp_stdRptProcEvtKeyDown cfg s tc = (s, [])) ∧
    (tc ∉ s.stdRptKeyCodes →
      kbapp_stdRptProcEvtKeyUp s tc = s) := by
  refine ⟨?_, ?_, ?_⟩
  · intro hnot hroom
    have hdown : (kbapp_stdRptProcEvtKeyDown cfg s tc).1 =
        { s with stdRptKeyCodes := s.stdRptKeyCodes ++ [tc], stdRptChanged := true } := by
      simp [kbapp_stdRptProcEvtKeyDown, hnot, hroom]
    rw [hdown]
    have hup := stdUpScan_fresh_append tc s.stdRptKeyCodes 0 hnot (Nat.zero_le _)
    constructor
    · show (stdUpScan tc (s.stdRptKeyCodes ++ [tc]) 0).1 = s.stdRptKeyCodes
      rw [hup]
    · show (stdUpScan tc (s.stdRptKeyCodes ++ [tc]) 0).1.length = s.stdRptKeyCodes.length
      rw [hup]
  · intro hmem
    simp [kbapp_stdRptProcEvtKeyDown, hmem]
  · intro hnot
    have hup := stdUpScan_no_match tc s.stdRptKeyCodes 0
      (by
        intro x hx hxe
        exact hnot (hxe ▸ (by simpa using hx)))
    unfold kbapp_stdRptProcEvtKeyUp
    rw [hup]
    simp

/-- Claim C2, witness: from a report holding codes 4 and 5 (below the
maximum of 6), down(9) then up(9) restores the key list and count; down(4)
is idempotent; up(9) on a report without 9 is a no-op. -/
theorem c2_down_up_pairing_witness :
    ((9 : Nat) ∉ twoKeyState.stdRptKeyCodes →
      twoKeyState.stdRptKeyCodes.length < scrollCfg.maxKeysInStdRpt →
      ((kbapp_stdRptProcEvtKeyUp
          (kbapp_stdRptProcEvtKeyDown scrollCfg twoKeyState 9).1 9).stdRptKeyCodes =
        twoKeyState.stdRptKeyCodes ∧
       (kbapp_stdRptProcEvtKeyUp
          (kbapp_stdRptProcEvtKeyDown scrollCfg twoKeyState 9).1 9).keysInStdRpt =
        twoKeyState.keysInStdRpt)) ∧
    ((4 : Nat) ∈ twoKeyState.stdRptKeyCodes →
      kbapp_stdRptProcEvtKeyDown scrollCfg twoKeyState 4 = (twoKeyState, [])) ∧
    ((9 : Nat) ∉ twoKeyState.stdRptKeyCodes →
      kbapp_stdRptProcEvtKeyUp twoKeyState 9 = twoKeyState) :=
  ⟨fun h1 h2 => (c2_down_up_pairing scrollCfg twoKeyState 9).1 h1 h2,
   fun _ => (c2_down_up_pairing scrollCfg twoKeyState 4).2.1 (by decide),
   fun h => (c2_down_up_pairing scrollCfg twoKeyState 9).2.2 h⟩

/-- The standard-report key-down handler, in the absence of overflow,
leaves the func-lock bookkeeping, the recovery countdown and the protocol
untouched. -/
theorem stdRptProcEvtKeyDown_preserves (cfg : KbConfig) (s : KbState) (tc : Nat)
    (hroom : s.stdRptKeyCodes.length < cfg.maxKeysInStdRpt) :
    (kbapp_stdRptProcEvtKeyDown cfg s tc).1.funcLockState = s.funcLockState ∧
    (kbapp_stdRptProcEvtKeyDown cfg s tc).1.funcLockKepPosition = s.funcLockKepPosition ∧
    (kbapp_stdRptProcEvtKeyDown cfg s tc).1.toggleStateOnKeyUp = s.toggleStateOnKeyUp ∧
    (kbapp_stdRptProcEvtKeyDown cfg s tc).1.recoveryInProgress = s.recoveryInProgress ∧
    (kbapp_stdRptProcEvtKeyDown cfg s tc).1.protocol = s.protocol := by
  by_cases hm : tc ∈ s.stdRptKeyCodes
  · simp [kbapp_stdRptProcEvtKeyDown, hm]
  · simp [kbapp_stdRptProcEvtKeyDown, hm, hroom]

/-- The standard-report key-up handler touches only the key list and the
standard changed flag. -/
theorem stdRptProcEvtKeyUp_preserves (s : KbState) (tc : Nat) :
    (kbapp_stdRptProcEvtKeyUp s tc).funcLockState = s.funcLockState ∧
    (kbapp_stdRptProcEvtKeyUp s tc).funcLockKepPosition = s.funcLockKepPosition ∧
    (kbapp_stdRptProcEvtKeyUp s tc).toggleStateOnKeyUp = s.toggleStateOnKeyUp ∧
    (kbapp_stdRptProcEvtKeyUp s tc).recoveryInProgress = s.recoveryInProgress ∧
    (kbapp_stdRptProcEvtKeyUp s tc).protocol = s.protocol :=
  ⟨rfl, rfl, rfl, rfl, rfl⟩

/-- The bit-mapped handler touches only the bit report fields. -/
theorem bitRptProcEvtKey_preserves (cfg : KbConfig) (s : KbState)
    (upDownFlag rowCol : Nat) :
    (kbapp_bitRptProcEvtKey cfg s upDownFlag rowCol).funcLockState = s.funcLockState ∧
    (kbapp_bitRptProcEvtKey cfg s upDownFlag rowCol).funcLockKepPosition =
      s.funcLockKepPosition ∧
    (kbapp_bitRptProcEvtKey cfg s upDownFlag rowCol).toggleStateOnKeyUp =
      s.toggleStateOnKeyUp ∧
    (kbapp_bitRptProcEvtKey cfg s upDownFlag rowCol).recoveryInProgress =
      s.recoveryInProgress ∧
    (kbapp_bitRptProcEvtKey cfg s upDownFlag rowCol).protocol = s.protocol := by
  simp only [kbapp_bitRptProcEvtKey]
  split_ifs <;> exact ⟨rfl, rfl, rfl, rfl, rfl⟩

/-- The standard-key dispatch preserves the func-lock bookkeeping when a
down event cannot overflow. -/
theorem stdRptProcEvtKey_preserves (cfg : KbConfig) (s : KbState)
    (upDownFlag tc : Nat)
    (hroom : s.stdRptKeyCodes.length < cfg.maxKeysInStdRpt) :
    (kbapp_stdRptProcEvtKey cfg s upDownFlag tc).1.funcLockState = s.funcLockState ∧
    (kbapp_stdRptProcEvtKey cfg s upDownFlag tc).1.funcLockKepPosition =
      s.funcLockKepPosition ∧
    (kbapp_stdRptProcEvtKey cfg s upDownFlag tc).1.toggleStateOnKeyUp =
      s.toggleStateOnKeyUp ∧
    (kbapp_stdRptProcEvtKey cfg s upDownFlag tc).1.recoveryInProgress =
      s.recoveryInProgress ∧
    (kbapp_stdRptProcEvtKey cfg s upDownFlag tc).1.protocol = s.protocol := by
  unfold kbapp_stdRptProcEvtKey
  by_cases hud : upDownFlag = KEY_DOWN
  · simp only [hud, if_pos rfl]
    exact stdRptProcEvtKeyDown_preserves cfg s tc hroom
  · simp only [if_neg hud]
    exact stdRptProcEvtKeyUp_preserves s tc

/-- The func-lock dependent-key down handler, in the absence of overflow,
preserves the lock state, the tracked key position, the recovery countdown
and the protocol, and unconditionally sets `toggleStateOnKeyUp`. -/
theorem funcLockProcEvtDepKey_down_fields (cfg : KbConfig) (s : KbState) (idx : Nat)
    (hroom : s.stdRptKeyCodes.length < cfg.maxKeysInStdRpt) :
    (kbapp_funcLockProcEvtDepKey cfg s KEY_DOWN idx).1.funcLockState = s.funcLockState ∧
    (kbapp_funcLockProcEvtDepKey cfg s KEY_DOWN idx).1.funcLockKepPosition =
      s.funcLockKepPosition ∧
    (kbapp_funcLockProcEvtDepKey cfg s KEY_DOWN idx).1.toggleStateOnKeyUp = true ∧
    (kbapp_funcLockProcEvtDepKey cfg s KEY_DOWN idx).1.recoveryInProgress =
      s.recoveryInProgress ∧
    (kbapp_funcLockProcEvtDepKey cfg s KEY_DOWN idx).1.protocol = s.protocol := by
  unfold kbapp_funcLockProcEvtDepKey
  simp only [if_pos rfl]
  by_cases hroute : s.funcLockState = FUNC_LOCK_STATE_ON ∨ s.protocol = PROTOCOL_BOOT
  · simp only [if_pos hroute]
    have h := stdRptProcEvtKey_preserves cfg s KEY_DOWN
      (kbFuncLockDepKeyTransTab.getD idx ⟨0, 0⟩).stdRptCode hroom
    exact ⟨h.1, h.2.1, rfl, h.2.2.2.1, h.2.2.2.2⟩
  · simp only [if_neg hroute]
    have h := bitRptProcEvtKey_preserves cfg s KEY_DOWN
      (kbFuncLockDepKeyTransTab.getD idx ⟨0, 0⟩).bitRptCode
    exact ⟨h.1, h.2.1, rfl, h.2.2.2.1, h.2.2.2.2⟩

/-- The func-lock dependent-key up handler preserves the complete func-lock
bookkeeping (it only routes the up event to the standard and bit-mapped
handlers). -/
theorem funcLockProcEvtDepKey_up_fields (cfg : KbConfig) (s : KbState) (idx : Nat) :
    (kbapp_funcLockProcEvtDepKey cfg s KEY_UP idx).1.funcLockState = s.funcLockState ∧
    (kbapp_funcLockProcEvtDepKey cfg s KEY_UP idx).1.funcLockKepPosition =
      s.funcLockKepPosition ∧
    (kbapp_funcLockProcEvtDepKey cfg s KEY_UP idx).1.toggleStateOnKeyUp =
      s.toggleStateOnKeyUp ∧
    (kbapp_funcLockProcEvtDepKey cfg s KEY_UP idx).1.recoveryInProgress =
      s.recoveryInProgress ∧
    (kbapp_funcLockProcEvtDepKey cfg s KEY_UP idx).1.protocol = s.protocol := by
  have hne : ¬(KEY_UP = KEY_DOWN) := by simp [KEY_UP, KEY_DOWN]
  unfold kbapp_funcLockProcEvtDepKey
  simp only [if_neg hne]
  have hstdeq : kbapp_stdRptProcEvtKey cfg s KEY_UP
      (kbFuncLockDepKeyTransTab.getD idx ⟨0, 0⟩).stdRptCode =
      (kbapp_stdRptProcEvtKeyUp s
        (kbFuncLockDepKeyTransTab.getD idx ⟨0, 0⟩).stdRptCode, []) := by
    simp [kbapp_stdRptProcEvtKey, hne]
  rw [hstdeq]
  have h1 := stdRptProcEvtKeyUp_preserves s
    (kbFuncLockDepKeyTransTab.getD idx ⟨0, 0⟩).stdRptCode
  have h2 := bitRptProcEvtKey_preserves cfg
    (kbapp_stdRptProcEvtKeyUp s
      (kbFuncLockDepKeyTransTab.getD idx ⟨0, 0⟩).stdRptCode) KEY_UP
    (kbFuncLockDepKeyTransTab.getD idx ⟨0, 0⟩).bitRptCode
  exact ⟨h2.1.trans h1.1, h2.2.1.trans h1.2.1, h2.2.2.1.trans h1.2.2.1,
         h2.2.2.2.1.trans h1.2.2.2.1, h2.2.2.2.2.trans h1.2.2.2.2⟩

/-- Explicit result of a func-lock key-down processed outside recovery, in
report protocol, while the key is tracked up: the key is tracked down, the
lock state toggles, and `toggleStateOnKeyUp` is cleared. -/
theorem funcLockProcEvtKey_down_eq (s : KbState)
    (hrec : s.recoveryInProgress = 0) (hprot : s.protocol = PROTOCOL_REPORT)
    (hpos : s.funcLockKepPosition = FUNC_LOCK_KEY_UP) :
    kbapp_funcLockProcEvtKey s KEY_DOWN =
      { s with
        funcLockKepPosition := FUNC_LOCK_KEY_DOWN,
        funcLockState := if s.funcLockState = FUNC_LOCK_STATE_OFF
                         then FUNC_LOCK_STATE_ON else FUNC_LOCK_STATE_OFF,
        funcLockRptStatus := (if s.funcLockState = FUNC_LOCK_STATE_OFF
                              then FUNC_LOCK_STATE_ON else FUNC_LOCK_STATE_OFF) ||| 2,
        funcLockRptChanged := true,
        toggleStateOnKeyUp := false } := by
  simp [kbapp_funcLockProcEvtKey, hrec, hprot, hpos, kbapp_funcLockToggle]

/-- A func-lock key-up with the toggle-on-key-up flag clear only tracks the
key back up. -/
theorem funcLockProcEvtKey_up_noToggle (s : KbState)
    (hrec : s.recoveryInProgress = 0) (hprot : s.protocol = PROTOCOL_REPORT)
    (hpos : s.funcLockKepPosition = FUNC_LOCK_KEY_DOWN)
    (hflag : s.toggleStateOnKeyUp = false) :
    kbapp_funcLockProcEvtKey s KEY_UP =
      { s with funcLockKepPosition := FUNC_LOCK_KEY_UP } := by
  simp [kbapp_funcLockProcEvtKey, hrec, hprot, hpos, hflag, KEY_UP, KEY_DOWN]

/-- A func-lock key-up with the toggle-on-key-up flag set tracks the key up
and toggles the lock state a second time. -/
theorem funcLockProcEvtKey_up_toggle (s : KbState)
    (hrec : s.recoveryInProgress = 0) (hprot : s.protocol = PROTOCOL_REPORT)
    (hpos : s.funcLockKepPosition = FUNC_LOCK_KEY_DOWN)
    (hflag : s.toggleStateOnKeyUp = true) :
    kbapp_funcLockProcEvtKey s KEY_UP =
      { s with
        funcLockKepPosition := FUNC_LOCK_KEY_UP,
        funcLockState := if s.funcLockState = FUNC_LOCK_STATE_OFF
                         then FUNC_LOCK_STATE_ON else FUNC_LOCK_STATE_OFF,
        funcLockRptStatus := (if s.funcLockState = FUNC_LOCK_STATE_OFF
                              then FUNC_LOCK_STATE_ON else FUNC_LOCK_STATE_OFF) ||| 2,
        funcLockRptChanged := true } := by
  simp [kbapp_funcLockProcEvtKey, hrec, hprot, hpos, hflag, KEY_UP, KEY_DOWN,
    kbapp_funcLockToggle]

/-- Claim C6: with no recovery in progress, report protocol active and the
func-lock key tracked up, a func-lock down/up pair with no intervening
dependent key toggles the lock state exactly once (the down toggles it, the
up does not); and the sequence func-lock down, dependent-key down,
dependent-key up, func-lock up toggles it exactly twice (the dependent
events leave the lock state unchanged but arm `toggleStateOnKeyUp`, so the
final up toggles again, restoring the initial state). -/
theorem c6_funcLock_toggle_sequences (cfg : KbConfig) (s : KbState) (idx : Nat)
    (hrec : s.recoveryInProgress = 0) (hprot : s.protocol = PROTOCOL_REPORT)
    (hpos : s.funcLockKepPosition = FUNC_LOCK_KEY_UP)
    (hst : s.funcLockState = FUNC_LOCK_STATE_OFF ∨
           s.funcLockState = FUNC_LOCK_STATE_ON)
    (hroom : s.stdRptKeyCodes.length < cfg.maxKeysInStdRpt) :
    ((kbapp_funcLockProcEvtKey s KEY_DOWN).funcLockState =
       (if s.funcLockState = FUNC_LOCK_STATE_OFF then FUNC_LOCK_STATE_ON
        else FUNC_LOCK_STATE_OFF)) ∧
    ((kbapp_funcLockProcEvtKey (kbapp_funcLockProcEvtKey s KEY_DOWN)
        KEY_UP).funcLockState =
       (if s.funcLockState = FUNC_LOCK_STATE_OFF then FUNC_LOCK_STATE_ON
        else FUNC_LOCK_STATE_OFF)) ∧
    ((kbapp_funcLockProcEvtDepKey cfg (kbapp_funcLockProcEvtKey s KEY_DOWN)
        KEY_DOWN idx).1.funcLockState =
       (kbapp_funcLockProcEvtKey s KEY_DOWN).funcLockState) ∧
    ((kbapp_funcLockProcEvtDepKey cfg
        (kbapp_funcLockProcEvtDepKey cfg (kbapp_funcLockProcEvtKey s KEY_DOWN)
          KEY_DOWN idx).1 KEY_UP idx).1.funcLockState =
       (kbapp_funcLockProcEvtKey s KEY_DOWN).funcLockState) ∧
    ((kbapp_funcLockProcEvtKey
        (kbapp_funcLockProcEvtDepKey cfg
          (kbapp_funcLockProcEvtDepKey cfg (kbapp_funcLockProcEvtKey s KEY_DOWN)
            KEY_DOWN idx).1 KEY_UP idx).1 KEY_UP).funcLockState =
       s.funcLockState) := by
  have h1 := funcLockProcEvtKey_down_eq s hrec hprot hpos
  have hA2 : (kbapp_funcLockProcEvtKey s KEY_DOWN).funcLockState =
      (if s.funcLockState = FUNC_LOCK_STATE_OFF then FUNC_LOCK_STATE_ON
       else FUNC_LOCK_STATE_OFF) := by
    rw [h1]
  have hs1rec : (kbapp_funcLockProcEvtKey s KEY_DOWN).recoveryInProgress = 0 := by
    rw [h1]; exact hrec
  have hs1prot : (kbapp_funcLockProcEvtKey s KEY_DOWN).protocol = PROTOCOL_REPORT := by
    rw [h1]; exact hprot
  have hs1pos : (kbapp_funcLockProcEvtKey s KEY_DOWN).funcLockKepPosition =
      FUNC_LOCK_KEY_DOWN := by
    rw [h1]
  have hs1flag : (kbapp_funcLockProcEvtKey s KEY_DOWN).toggleStateOnKeyUp = false := by
    rw [h1]
  have hs1room : (kbapp_funcLockProcEvtKey s KEY_DOWN).stdRptKeyCodes.length <
      cfg.maxKeysInStdRpt := by
    rw [h1]; exact hroom
  have h2 := funcLockProcEvtKey_up_noToggle (kbapp_funcLockProcEvtKey s KEY_DOWN)
    hs1rec hs1prot hs1pos hs1flag
  have hA1 : (kbapp_funcLockProcEvtKey (kbapp_funcLockProcEvtKey s KEY_DOWN)
      KEY_UP).funcLockState =
      (if s.funcLockState = FUNC_LOCK_STATE_OFF then FUNC_LOCK_STATE_ON
       else FUNC_LOCK_STATE_OFF) := by
    rw [h2]
    exact hA2
  -- sequence 2: dependent-key down and up between the func-lock pair
  have f1 := funcLockProcEvtDepKey_down_fields cfg
    (kbapp_funcLockProcEvtKey s KEY_DOWN) idx hs1room
  have f2 := funcLockProcEvtDepKey_up_fields cfg
    (kbapp_funcLockProcEvtDepKey cfg (kbapp_funcLockProcEvtKey s KEY_DOWN)
      KEY_DOWN idx).1 idx
  have hB1 := f1.1
  have hB2 : (kbapp_funcLockProcEvtDepKey cfg
      (kbapp_funcLockProcEvtDepKey cfg (kbapp_funcLockProcEvtKey s KEY_DOWN)
        KEY_DOWN idx).1 KEY_UP idx).1.funcLockState =
      (kbapp_funcLockProcEvtKey s KEY_DOWN).funcLockState := f2.1.trans f1.1
  have hs3rec := f2.2.2.2.1.trans (f1.2.2.2.1.trans hs1rec)
  have hs3prot := f2.2.2.2.2.trans (f1.2.2.2.2.trans hs1prot)
  have hs3pos := f2.2.1.trans (f1.2.1.trans hs1pos)
  have hs3flag := f2.2.2.1.trans f1.2.2.1
  have h4 := funcLockProcEvtKey_up_toggle _ hs3rec hs3prot hs3pos hs3flag
  have hB3 : (kbapp_funcLockProcEvtKey
      (kbapp_funcLockProcEvtDepKey cfg
        (kbapp_funcLockProcEvtDepKey cfg (kbapp_funcLockProcEvtKey s KEY_DOWN)
          KEY_DOWN idx).1 KEY_UP idx).1 KEY_UP).funcLockState =
      s.funcLockState := by
    rw [h4]
    show (if (kbapp_funcLockProcEvtDepKey cfg
        (kbapp_funcLockProcEvtDepKey cfg (kbapp_funcLockProcEvtKey s KEY_DOWN)
          KEY_DOWN idx).1 KEY_UP idx).1.funcLockState = FUNC_LOCK_STATE_OFF
      then FUNC_LOCK_STATE_ON else FUNC_LOCK_STATE_OFF) = s.funcLockState
    rw [hB2, hA2]
    rcases hst with h | h <;>
      simp [h, FUNC_LOCK_STATE_OFF, FUNC_LOCK_STATE_ON]
  exact ⟨hA2, hA1, hB1, hB2, hB3⟩

/-- Claim C6, witness: the two sequences from the cleared base state
(func-lock OFF, key up, report protocol, no recovery) with dependent-key
table index 0: down/up leaves the lock ON (toggled once); the four-event
sequence leaves it OFF again (toggled twice). -/
theorem c6_funcLock_toggle_sequences_witness :
    ((kbapp_funcLockProcEvtKey baseState KEY_DOWN).funcLockState =
       (if baseState.funcLockState = FUNC_LOCK_STATE_OFF then FUNC_LOCK_STATE_ON
        else FUNC_LOCK_STATE_OFF)) ∧
    ((kbapp_funcLockProcEvtKey (kbapp_funcLockProcEvtKey baseState KEY_DOWN)
        KEY_UP).funcLockState =
       (if baseState.funcLockState = FUNC_LOCK_STATE_OFF then FUNC_LOCK_STATE_ON
        else FUNC_LOCK_STATE_OFF)) ∧
    ((kbapp_funcLockProcEvtDepKey scrollCfg
        (kbapp_funcLockProcEvtKey baseState KEY_DOWN)
        KEY_DOWN 0).1.funcLockState =
       (kbapp_funcLockProcEvtKey baseState KEY_DOWN).funcLockState) ∧
    ((kbapp_funcLockProcEvtDepKey scrollCfg
        (kbapp_funcLockProcEvtDepKey scrollCfg
          (kbapp_funcLockProcEvtKey baseState KEY_DOWN)
          KEY_DOWN 0).1 KEY_UP 0).1.funcLockState =
       (kbapp_funcLockProcEvtKey baseState KEY_DOWN).funcLockState) ∧
    ((kbapp_funcLockProcEvtKey
        (kbapp_funcLockProcEvtDepKey scrollCfg
          (kbapp_funcLockProcEvtDepKey scrollCfg
            (kbapp_funcLockProcEvtKey baseState KEY_DOWN)
            KEY_DOWN 0).1 KEY_UP 0).1 KEY_UP).funcLockState =
       baseState.funcLockState) :=
  c6_funcLock_toggle_sequences scrollCfg baseState 0 rfl rfl rfl (Or.inl rfl)
    (by decide)

/-- Setting a byte's clear bit raises its popcount by one (checked over
all byte values and bit positions; the guard is the C code's own test
`byte & mask == 0`). -/
theorem countBits8_or_pow : ∀ b < 256, ∀ col < 8, b &&& 2 ^ col = 0 →
    countBits8 (b ||| 2 ^ col) = countBits8 b + 1 := by
  set_option maxRecDepth 10000 in decide

/-- Clearing a byte's set bit (via the `uint8_t` and-not mask
`byte & ~mask = byte & (255 ^^^ mask)`) lowers its popcount by one. -/
theorem countBits8_and_not_pow : ∀ b < 256, ∀ col < 8, b &&& 2 ^ col ≠ 0 →
    countBits8 (b &&& (255 ^^^ 2 ^ col)) + 1 = countBits8 b := by
  set_option maxRecDepth 10000 in decide

/-- Replacing one cell of a list shifts the sum of a mapped function by the
difference between the new and old cell values. -/
theorem sum_map_set (f : Nat → Nat) (l : List Nat) (i : Nat) (x : Nat)
    (h : i < l.length) :
    ((l.set i x).map f).sum + f (l.getD i 0) = (l.map f).sum + f x := by
  induction l generalizing i with
  | nil => simp at h
  | cons a t ih =>
    cases i with
    | zero =>
      simp only [List.set_cons_zero, List.map_cons, List.sum_cons,
        List.getD_cons_zero]
      omega
    | succ n =>
      simp only [List.set_cons_succ, List.map_cons, List.sum_cons,
        List.getD_cons_succ]
      have := ih n (by simpa using h)
      omega

/-- Claim C9: the invariant `keysInBitRpt = number of set bits in the
bit-mapped report` (together with the byte bound of the `uint8_t` cells) is
preserved by `kbapp_bitRptProcEvtKey` — which moves the counter exactly
when it flips a bit — holds after `kbapp_bitRptClear` (which resets the
array and counter to zero, giving the initial state), and out-of-range
row/col values are ignored without any state change. -/
theorem c9_bitRpt_invariant (cfg : KbConfig) (s : KbState)
    (upDownFlag rowCol : Nat) :
    (bitRptInv s → cfg.numBitMappedKeys ≤ 8 * s.bitMappedKeys.length →
      bitRptInv (kbapp_bitRptProcEvtKey cfg s upDownFlag rowCol)) ∧
    (cfg.numBitMappedKeys ≤ rowCol →
      kbapp_bitRptProcEvtKey cfg s upDownFlag rowCol = s) ∧
    (bitRptInv (kbapp_bitRptClear s) ∧
     (kbapp_bitRptClear s).keysInBitRpt = 0 ∧
     (kbapp_bitRptClear s).bitMappedKeys =
       List.replicate s.bitMappedKeys.length 0) ∧
    bitRptInv baseState := by
  refine ⟨?_, ?_, ?_, ?_⟩
  · rintro ⟨hsum, hbytes⟩ hnum
    by_cases hrc : rowCol < cfg.numBitMappedKeys
    · have hrow : rowCol >>> 3 < s.bitMappedKeys.length := by
        rw [Nat.shiftRight_eq_div_pow]
        have h8 : rowCol < 8 * s.bitMappedKeys.length := lt_of_lt_of_le hrc hnum
        exact (Nat.div_lt_iff_lt_mul (by norm_num)).mpr (by omega)
      have hcol : rowCol &&& 7 < 8 := Nat.lt_succ_of_le Nat.and_le_right
      have hbmem : s.bitMappedKeys.getD (rowCol >>> 3) 0 ∈ s.bitMappedKeys := by
        rw [List.getD_eq_getElem _ 0 hrow]
        exact List.getElem_mem hrow
      have hb256 : s.bitMappedKeys.getD (rowCol >>> 3) 0 < 256 := hbytes _ hbmem
      have hmask : (2 : Nat) ^ (rowCol &&& 7) < 256 := by
        calc (2 : Nat) ^ (rowCol &&& 7) < 2 ^ 8 := Nat.pow_lt_pow_right (by norm_num) hcol
          _ = 256 := by norm_num
      simp only [kbapp_bitRptProcEvtKey, if_pos hrc]
      by_cases hud : upDownFlag = KEY_DOWN
      · rw [if_pos hud]
        by_cases h0 : s.bitMappedKeys.getD (rowCol >>> 3) 0 &&& 2 ^ (rowCol &&& 7) = 0
        · rw [if_pos h0]
          constructor
          · show s.keysInBitRpt + 1 =
              ((s.bitMappedKeys.set (rowCol >>> 3)
                (s.bitMappedKeys.getD (rowCol >>> 3) 0 ||| 2 ^ (rowCol &&& 7))).map
                  countBits8).sum
            have hsms := sum_map_set countBits8 s.bitMappedKeys (rowCol >>> 3)
              (s.bitMappedKeys.getD (rowCol >>> 3) 0 ||| 2 ^ (rowCol &&& 7)) hrow
            have hcnt := countBits8_or_pow _ hb256 _ hcol h0
            omega
          · intro y hy
            rcases List.mem_or_eq_of_mem_set hy with h | h
            · exact hbytes y h
            · subst h
              have : s.bitMappedKeys.getD (rowCol >>> 3) 0 ||| 2 ^ (rowCol &&& 7) <
                  2 ^ 8 := Nat.or_lt_two_pow (by omega) (by omega)
              omega
        · rw [if_neg h0]
          exact ⟨hsum, hbytes⟩
      · rw [if_neg hud]
        by_cases h0 : s.bitMappedKeys.getD (rowCol >>> 3) 0 &&& 2 ^ (rowCol &&& 7) ≠ 0
        · rw [if_pos h0]
          constructor
          · show s.keysInBitRpt - 1 =
              ((s.bitMappedKeys.set (rowCol >>> 3)
                (s.bitMappedKeys.getD (rowCol >>> 3) 0 &&& (255 ^^^ 2 ^ (rowCol &&& 7)))).map
                  countBits8).sum
            have hsms := sum_map_set countBits8 s.bitMappedKeys (rowCol >>> 3)
              (s.bitMappedKeys.getD (rowCol >>> 3) 0 &&& (255 ^^^ 2 ^ (rowCol &&& 7))) hrow
            have hcnt := countBits8_and_not_pow _ hb256 _ hcol h0
            omega
          · intro y hy
            rcases List.mem_or_eq_of_mem_set hy with h | h
            · exact hbytes y h
            · subst h
              have hle : s.bitMappedKeys.getD (rowCol >>> 3) 0 &&&
                  (255 ^^^ 2 ^ (rowCol &&& 7)) ≤ 255 ^^^ 2 ^ (rowCol &&& 7) :=
                Nat.and_le_right
              have hxor : (255 : Nat) ^^^ 2 ^ (rowCol &&& 7) < 2 ^ 8 :=
                Nat.xor_lt_two_pow (by norm_num) (by omega)
              omega
        · rw [if_neg h0]
          exact ⟨hsum, hbytes⟩
    · simp only [kbapp_bitRptProcEvtKey, if_neg hrc]
      exact ⟨hsum, hbytes⟩
  · intro hle
    simp only [kbapp_bitRptProcEvtKey, if_neg (by omega : ¬ rowCol < cfg.numBitMappedKeys)]
  · refine ⟨⟨?_, ?_⟩, rfl, rfl⟩
    · show (0 : Nat) = ((List.replicate s.bitMappedKeys.length 0).map countBits8).sum
      induction s.bitMappedKeys.length with
      | zero => simp
      | succ n ih =>
        simp only [List.replicate_succ, List.map_cons, List.sum_cons]
        rw [← ih]
        simp [countBits8]
    · intro b hb
      have : b = 0 := List.eq_of_mem_replicate hb
      omega
  · exact ⟨by decide, by decide⟩

/-- Claim C9, witness: the invariant-preservation applied to a concrete
in-range key-down on the cleared base state (bit 5 set, counter 1). -/
theorem c9_bitRpt_invariant_witness :
    (bitRptInv baseState → scrollCfg.numBitMappedKeys ≤ 8 * baseState.bitMappedKeys.length →
      bitRptInv (kbapp_bitRptProcEvtKey scrollCfg baseState KEY_DOWN 5)) ∧
    bitRptInv (kbapp_bitRptProcEvtKey scrollCfg baseState KEY_DOWN 5) := by
  have h := c9_bitRpt_invariant scrollCfg baseState KEY_DOWN 5
  refine ⟨h.1, h.1 ⟨by decide, by decide⟩ (by decide)⟩

/-- A decoded pin digit pins the usage code into one of the four digit
ranges (keyboard 0, keypad 0, keyboard 1–9, keypad 1–9). -/
theorem pinDigit_ranges (u d : Nat) (h : pinDigitOfUsage u = some d) :
    u = USB_USAGE_0 ∨ u = USB_USAGE_KP_0 ∨
    (USB_USAGE_1 ≤ u ∧ u ≤ USB_USAGE_9) ∨
    (USB_USAGE_KP_1 ≤ u ∧ u ≤ USB_USAGE_KP_9) := by
  unfold pinDigitOfUsage at h
  split_ifs at h with h1 h2 h3
  · rcases h1 with h1 | h1
    · exact Or.inl h1
    · exact Or.inr (Or.inl h1)
  · exact Or.inr (Or.inr (Or.inl h2))
  · exact Or.inr (Or.inr (Or.inr h3))

/-- `kbapp_pinEntryEvent` touches only the pin report code and its changed
flag: buffer, limits, latched enter key, mode and queue are untouched. -/
theorem pinEntryEvent_fields (s : KbState) (e : KeyEntryEvent) :
    (kbapp_pinEntryEvent s e).pinCodeBuffer = s.pinCodeBuffer ∧
    (kbapp_pinEntryEvent s e).maxPinCodeSize = s.maxPinCodeSize ∧
    (kbapp_pinEntryEvent s e).enterKeyPressed = s.enterKeyPressed ∧
    (kbapp_pinEntryEvent s e).pinCodeEntryInProgress = s.pinCodeEntryInProgress ∧
    (kbapp_pinEntryEvent s e).eventQueue = s.eventQueue := by
  unfold kbapp_pinEntryEvent kbapp_pinRptUpdate
  cases h : s.pinCodeEntryInProgress <;> dsimp only <;>
    (try split_ifs) <;> refine ⟨rfl, rfl, rfl, ?_, rfl⟩ <;>
    first
      | exact h
      | rfl

/-- Claim C8: during pin/passcode entry, a digit key-down appends one ASCII
digit to the buffer exactly when the buffer is below `maxPinCodeSize` and is
silently ignored otherwise; backspace or delete drops the last accumulated
character only when the buffer is non-empty and is a no-op on an empty
buffer; and a key event matching the latched enter key completes the mode:
the handler returns with the pin-entry flag cleared and all queued input
flushed. -/
theorem c8_pin_entry (keys : List KbKeyConfig) (s : KbState)
    (u d ud kc : Nat) (rest : List HidEvent) (e : KbKeyConfig) :
    (pinDigitOfUsage u = some d →
      ((s.pinCodeBuffer.length < s.maxPinCodeSize →
         (pinEntryProcDownUsage s u).pinCodeBuffer = s.pinCodeBuffer ++ [d + 48]) ∧
       (¬ s.pinCodeBuffer.length < s.maxPinCodeSize →
         pinEntryProcDownUsage s u = s))) ∧
    ((u = USB_USAGE_BACKSPACE ∨ u = USB_USAGE_DELETE) →
      ((s.pinCodeBuffer ≠ [] →
         (pinEntryProcDownUsage s u).pinCodeBuffer = s.pinCodeBuffer.dropLast) ∧
       (s.pinCodeBuffer = [] → pinEntryProcDownUsage s u = s))) ∧
    (s.eventQueue = HidEvent.key ud kc :: rest → ud ≠ KEY_DOWN →
      keys.get? kc = some e → e.translationValue = s.enterKeyPressed →
      s.enterKeyPressed ≠ 0 →
      ∃ t, kbapp_handlePinEntry keys s = some t ∧
        t.pinCodeEntryInProgress = PinEntryMode.none ∧
        t.eventQueue = [] ∧ t.recoveryInProgress = 0) := by
  refine ⟨?_, ?_, ?_⟩
  · intro hd
    have hr := pinDigit_ranges u d hd
    have hnb : ¬(u = USB_USAGE_BACKSPACE ∨ u = USB_USAGE_DELETE) := by
      simp only [USB_USAGE_BACKSPACE, USB_USAGE_DELETE, USB_USAGE_0,
        USB_USAGE_KP_0, USB_USAGE_1, USB_USAGE_9, USB_USAGE_KP_1,
        USB_USAGE_KP_9] at hr ⊢
      omega
    have hne : ¬ u = USB_USAGE_ESCAPE := by
      simp only [USB_USAGE_ESCAPE, USB_USAGE_0, USB_USAGE_KP_0, USB_USAGE_1,
        USB_USAGE_9, USB_USAGE_KP_1, USB_USAGE_KP_9] at hr ⊢
      omega
    have hnent : ¬(u = USB_USAGE_ENTER ∨ u = USB_USAGE_KP_ENTER) := by
      simp only [USB_USAGE_ENTER, USB_USAGE_KP_ENTER, USB_USAGE_0,
        USB_USAGE_KP_0, USB_USAGE_1, USB_USAGE_9, USB_USAGE_KP_1,
        USB_USAGE_KP_9] at hr ⊢
      omega
    unfold pinEntryProcDownUsage
    rw [if_neg hnb, if_neg hne, if_neg hnent, hd]
    dsimp only
    constructor
    · intro hlen
      rw [if_pos hlen]
      exact (pinEntryEvent_fields _ KeyEntryEvent.char).1
    · intro hlen
      rw [if_neg hlen]
  · intro hu
    unfold pinEntryProcDownUsage
    rw [if_pos hu]
    constructor
    · intro hne
      rw [if_pos (by simpa using (fun h => hne (List.length_eq_zero.mp h)))]
      exact (pinEntryEvent_fields _ KeyEntryEvent.backspace).1
    · intro hemp
      rw [if_neg (by simp [hemp])]
  · intro hq hud hget htrans hent
    unfold kbapp_handlePinEntry
    rw [hq]
    simp only [pinEntryLoop]
    rw [if_neg (fun h => hud h.1)]
    rw [if_pos hent, hget]
    dsimp only
    rw [if_pos htrans]
    exact ⟨_, rfl, rfl, rfl, rfl⟩

/-- Claim C8, witness: a digit-1 press on an empty buffer appends ASCII
'1'; the same press on a full two-character buffer is ignored; backspace on
a one-character buffer drops it; and the Enter key-up completes the mode
with the queue flushed. -/
theorem c8_pin_entry_witness :
    ((pinEntryProcDownUsage pinModeState USB_USAGE_1).pinCodeBuffer = [49]) ∧
    (pinEntryProcDownUsage pinFullState USB_USAGE_1 = pinFullState) ∧
    ((pinEntryProcDownUsage pinOneCharState USB_USAGE_BACKSPACE).pinCodeBuffer = []) ∧
    (∃ t, kbapp_handlePinEntry pinKeys pinEnterState = some t ∧
      t.pinCodeEntryInProgress = PinEntryMode.none ∧
      t.eventQueue = [] ∧ t.recoveryInProgress = 0) :=
  ⟨((c8_pin_entry pinKeys pinModeState USB_USAGE_1 1 0 0 [] ⟨0, 0⟩).1
      (by decide)).1 (by decide),
   ((c8_pin_entry pinKeys pinFullState USB_USAGE_1 1 0 0 [] ⟨0, 0⟩).1
      (by decide)).2 (by decide),
   ((c8_pin_entry pinKeys pinOneCharState USB_USAGE_BACKSPACE 0 0 0 []
      ⟨0, 0⟩).2.1 (Or.inl rfl)).1 (by decide),
   (c8_pin_entry pinKeys pinEnterState 0 0 KEY_UP 2 []
      ⟨KEY_TYPE_STD, USB_USAGE_ENTER⟩).2.2 rfl (by decide) rfl rfl (by decide)⟩

/-- Claim C10: in pin-entry mode the handler reads `kbKeyConfig[keyCode]`
without a bound check, so the out-of-bounds branch of the total
(`Option`-returning) embedding is reachable from queue contents
`kbapp_pollActivityKey` itself produces: a scan cycle consisting of one
ordinary key and the end-of-scan-cycle marker (whose sentinel code lies at
or above the table size) queues both events, and draining that queue in
pin-entry mode hits the marker's out-of-bounds lookup (`none`); the normal
dispatcher `kbapp_procEvtKey`, by contrast, bound-checks first and handles
the same marker event by transmitting the modified reports — never touching
the table. -/
theorem c10_pin_entry_oob_lookup (keys : List KbKeyConfig) (cfg : KbConfig)
    (s : KbState) (k : Nat) (e : KbKeyConfig)
    (hq : s.eventQueue = [])
    (_hmode : s.pinCodeEntryInProgress ≠ PinEntryMode.none)
    (hent : s.enterKeyPressed = 0)
    (hk1 : k ≠ cfg.connectButtonScanIndex)
    (hk2 : k ≠ END_OF_SCAN_CYCLE)
    (hkin : keys.get? k = some e)
    (hetype : e.type ≠ KEY_TYPE_STD)
    (hcb : END_OF_SCAN_CYCLE ≠ cfg.connectButtonScanIndex)
    (hlen : keys.length ≤ END_OF_SCAN_CYCLE) :
    (kbapp_pollActivityKey cfg s
        [(k, KEY_DOWN), (END_OF_SCAN_CYCLE, KEY_DOWN)]).eventQueue =
      [HidEvent.key KEY_DOWN k, HidEvent.key KEY_DOWN END_OF_SCAN_CYCLE] ∧
    kbapp_handlePinEntry keys
      (kbapp_pollActivityKey cfg s
        [(k, KEY_DOWN), (END_OF_SCAN_CYCLE, KEY_DOWN)]) = none ∧
    kbapp_procEvtKeyOne keys cfg s KEY_DOWN END_OF_SCAN_CYCLE =
      kbapp_txModifiedKeyReports s := by
  have hqueue : (kbapp_pollActivityKey cfg s
      [(k, KEY_DOWN), (END_OF_SCAN_CYCLE, KEY_DOWN)]).eventQueue =
      [HidEvent.key KEY_DOWN k, HidEvent.key KEY_DOWN END_OF_SCAN_CYCLE] := by
    simp [kbapp_pollActivityKey, pollKeyLoop, hk1, hk2, hcb, hq]
  refine ⟨hqueue, ?_, ?_⟩
  · unfold kbapp_handlePinEntry
    rw [hqueue]
    simp only [pinEntryLoop]
    rw [if_pos ⟨trivial, hent⟩, hkin]
    dsimp only
    rw [if_neg hetype]
    rw [if_pos ⟨trivial, hent⟩, List.get?_eq_none.mpr hlen]
  · unfold kbapp_procEvtKeyOne
    rw [if_neg (by omega : ¬ END_OF_SCAN_CYCLE < keys.length),
      if_pos rfl]

/-- Claim C10, witness: the concrete pin-entry table (3 entries, sentinel
255 well beyond it): scan code 0 (type none) followed by the marker is
queued by the poll, the pin-entry drain hits the out-of-bounds lookup, and
the normal dispatcher transmits instead. -/
theorem c10_pin_entry_oob_lookup_witness :
    (kbapp_pollActivityKey scrollCfg pinModeState
        [(0, KEY_DOWN), (END_OF_SCAN_CYCLE, KEY_DOWN)]).eventQueue =
      [HidEvent.key KEY_DOWN 0, HidEvent.key KEY_DOWN END_OF_SCAN_CYCLE] ∧
    kbapp_handlePinEntry pinKeys
      (kbapp_pollActivityKey scrollCfg pinModeState
        [(0, KEY_DOWN), (END_OF_SCAN_CYCLE, KEY_DOWN)]) = none ∧
    kbapp_procEvtKeyOne pinKeys scrollCfg pinModeState KEY_DOWN
        END_OF_SCAN_CYCLE =
      kbapp_txModifiedKeyReports pinModeState :=
  c10_pin_entry_oob_lookup pinKeys scrollCfg pinModeState 0 ⟨KEY_TYPE_NONE, 0⟩
    rfl (by decide) rfl (by decide) (by decide) rfl (by decide) (by decide)
    (by decide)

end Kb













